import Mathlib

/-
Formal model of the CEL C++ type-check pass (checker/internal/type_checker_impl.cc).

The definitions below are shallow embeddings of the functions of that file:
`ComputeSourceLocation`, `IsSupportedKeyType`, the `ResolveVisitor` callbacks
(`PostVisitIdent`, `PostVisitList`, `PostVisitMap`, `PostVisitCall`,
`PostVisitSelect` via `ResolveSelectOperation`, the comprehension hooks),
`ResolveFunctionCallShape`, `ResolveFunctionOverloads`,
`ResolveSimpleIdentifier`, `ResolveQualifiedIdentifier`, the
`ResolveRewriter::PostVisitRewrite` pass and the tail of
`TypeCheckerImpl::Check`.

Collaborator components whose implementations live outside the translated file
(the type representation `common/type.h`, `TypeInferenceContext`,
`NamespaceGenerator`, `TypeCheckEnv`, `VariableScope`) are modelled from the
specification; each such definition carries a doc comment saying so.

C++ flat hash maps keyed by `const Expr*` are modelled as association lists
keyed by the expression's integer id (the AST carries unique per-node ids);
map assignment is modelled by consing, lookups take the most recent entry.
-/

namespace Cel

/-- Severity of a reported issue (TypeCheckIssue::Severity). -/
inductive Severity where
  | error
  | warning
  deriving DecidableEq, Repr

/-- A 1-based source position; the C++ default-constructed SourceLocation is (-1, -1). -/
structure SourceLocation where
  line : Int := -1
  column : Int := -1
  deriving DecidableEq, Repr

/-- A diagnostic accumulated by the checker (checker/type_check_issue.h). -/
structure TypeCheckIssue where
  severity : Severity
  location : SourceLocation
  message : String
  deriving DecidableEq, Repr

/-- TypeCheckIssue::CreateError. -/
def TypeCheckIssue.createError (loc : SourceLocation) (msg : String) : TypeCheckIssue :=
  ⟨.error, loc, msg⟩

/-- absl::Status as the checker uses it: ok, or an internal error message. -/
inductive Status where
  | ok
  | internalError (msg : String)
  deriving DecidableEq, Repr

/-- absl::Status::Update keeps the first non-ok status. -/
def Status.update : Status → Status → Status
  | .ok, s => s
  | .internalError m, _ => .internalError m

/-- Source information attached to the AST: a map from expression id to
absolute byte position, and the byte offsets of the line starts. -/
structure SourceInfo where
  positions : List (Nat × Int)
  lineOffsets : List Int
  deriving Repr

/-- The line-index loop of ComputeSourceLocation, translated exactly:
`line_idx` starts at -1 and the loop breaks as soon as
`absolute_position >= offset`, incrementing otherwise. -/
def computeLineIdxGo (absolutePosition : Int) : List Int → Int → Int
  | [], idx => idx
  | offset :: rest, idx =>
    if absolutePosition ≥ offset then idx else computeLineIdxGo absolutePosition rest (idx + 1)

/-- ComputeSourceLocation (type_checker_impl.cc): find the recorded absolute
position of the expression, run the line-index loop, then either return
(1, absolute_position) or the (line_idx + 1, relative position) pair. -/
def computeSourceLocation (si : SourceInfo) (exprId : Nat) : SourceLocation :=
  match si.positions.lookup exprId with
  | none => {}
  | some absolutePosition =>
    let lineIdx := computeLineIdxGo absolutePosition si.lineOffsets (-1)
    if lineIdx < 0 ∨ lineIdx ≥ (si.lineOffsets.length : Int) then
      ⟨1, absolutePosition⟩
    else
      ⟨lineIdx + 1, absolutePosition - si.lineOffsets.getD lineIdx.toNat 0 + 1⟩

/-- Modelled from the spec (§6, for comparison with `computeSourceLocation`):
"Line/column are 1-based: column is (absolute_position − line_offset + 1);
line is the index of the greatest line offset ≤ absolute_position, plus one."
Line offsets are ascending, so the greatest qualifying offset sits at the
greatest qualifying index. -/
def specSourceLocation (lineOffsets : List Int) (absolutePosition : Int) : Option SourceLocation :=
  match ((List.range lineOffsets.length).filter
      (fun i => lineOffsets.getD i 0 ≤ absolutePosition)).getLast? with
  | none => none
  | some i => some ⟨(i : Int) + 1, absolutePosition - lineOffsets.getD i 0 + 1⟩

mutual
/-- The checker's type values (common/type.h is outside the translated file;
the kinds are modelled from the spec §3: primitives, wrappers, list, map,
struct-by-name, named opaques with parameters — `optional(T)` being the opaque
named "optional_type" — reified types, and free type parameters). -/
inductive CelType where
  | dyn
  | error
  | null
  | bool
  | int
  | uint
  | double
  | string
  | bytes
  | duration
  | timestamp
  | any
  | boolWrapper
  | intWrapper
  | uintWrapper
  | doubleWrapper
  | stringWrapper
  | bytesWrapper
  | list (elem : CelType)
  | map (key value : CelType)
  | struct (name : String)
  | abstract (name : String) (params : CelTypeList)
  | typeType (params : CelTypeList)
  | typeParam (name : String)
  deriving DecidableEq, Repr
/-- Parameter lists of compound types (kept mutual with `CelType`). -/
inductive CelTypeList where
  | nil
  | cons (head : CelType) (tail : CelTypeList)
  deriving DecidableEq, Repr
end

def CelTypeList.toList : CelTypeList → List CelType
  | .nil => []
  | .cons h t => h :: t.toList

def CelTypeList.ofList : List CelType → CelTypeList
  | [] => .nil
  | h :: t => .cons h (CelTypeList.ofList t)

def CelTypeList.length : CelTypeList → Nat
  | .nil => 0
  | .cons _ t => t.length + 1

/-- TypeKind (common/type_kind.h, modelled from the spec's list of kinds). -/
inductive TypeKind where
  | dyn
  | error
  | null
  | bool
  | int
  | uint
  | double
  | string
  | bytes
  | duration
  | timestamp
  | any
  | boolWrapper
  | intWrapper
  | uintWrapper
  | doubleWrapper
  | stringWrapper
  | bytesWrapper
  | list
  | map
  | struct
  | abstract
  | typeType
  | typeParam
  deriving DecidableEq, Repr

/-- Type::kind(). -/
def CelType.kind : CelType → TypeKind
  | .dyn => .dyn
  | .error => .error
  | .null => .null
  | .bool => .bool
  | .int => .int
  | .uint => .uint
  | .double => .double
  | .string => .string
  | .bytes => .bytes
  | .duration => .duration
  | .timestamp => .timestamp
  | .any => .any
  | .boolWrapper => .boolWrapper
  | .intWrapper => .intWrapper
  | .uintWrapper => .uintWrapper
  | .doubleWrapper => .doubleWrapper
  | .stringWrapper => .stringWrapper
  | .bytesWrapper => .bytesWrapper
  | .list _ => .list
  | .map _ _ => .map
  | .struct _ => .struct
  | .abstract _ _ => .abstract
  | .typeType _ => .typeType
  | .typeParam _ => .typeParam

/-- OptionalType(t): the opaque named "optional_type" with one parameter. -/
def CelType.optionalType (t : CelType) : CelType :=
  .abstract "optional_type" (.cons t .nil)

/-- Type::IsOptional with OptionalType::GetParameter: the held type of an
optional, when the type is the one-parameter opaque named "optional_type". -/
def CelType.optionalParam : CelType → Option CelType
  | .abstract n (.cons t .nil) => if n = "optional_type" then some t else none
  | _ => none

mutual
/-- Type::DebugString, modelled from the spec's `debug_string(t)` operation
(the exact rendering is a collaborator detail; issue messages embed it). -/
def CelType.debugString : CelType → String
  | .dyn => "dyn"
  | .error => "*error*"
  | .null => "null_type"
  | .bool => "bool"
  | .int => "int"
  | .uint => "uint"
  | .double => "double"
  | .string => "string"
  | .bytes => "bytes"
  | .duration => "google.protobuf.Duration"
  | .timestamp => "google.protobuf.Timestamp"
  | .any => "google.protobuf.Any"
  | .boolWrapper => "google.protobuf.BoolValue"
  | .intWrapper => "google.protobuf.Int64Value"
  | .uintWrapper => "google.protobuf.UInt64Value"
  | .doubleWrapper => "google.protobuf.DoubleValue"
  | .stringWrapper => "google.protobuf.StringValue"
  | .bytesWrapper => "google.protobuf.BytesValue"
  | .list e => "list<" ++ e.debugString ++ ">"
  | .map k v => "map<" ++ k.debugString ++ ", " ++ v.debugString ++ ">"
  | .struct n => n
  | .abstract n ps => n ++ "<" ++ ps.debugStringJoin ++ ">"
  | .typeType ps => "type<" ++ ps.debugStringJoin ++ ">"
  | .typeParam n => n
/-- Comma-joined debug strings of a parameter list. -/
def CelTypeList.debugStringJoin : CelTypeList → String
  | .nil => ""
  | .cons h .nil => h.debugString
  | .cons h t => h.debugString ++ ", " ++ t.debugStringJoin
end

/-- IsSupportedKeyType (type_checker_impl.cc): a map key kind must be
bool, int, uint, string or dyn. -/
def isSupportedKeyType (t : CelType) : Bool :=
  match t.kind with
  | .bool | .int | .uint | .string | .dyn => true
  | _ => false

/-- VariableDecl = { name, type } (spec §3). -/
structure VariableDecl where
  name : String
  type : CelType
  deriving DecidableEq, Repr

/-- MakeVariableDecl (common/decl.h). -/
def makeVariableDecl (name : String) (ty : CelType) : VariableDecl :=
  ⟨name, ty⟩

/-- Overload = { id, member, parameters, result, type_parameters } (spec §3);
`args` matches the C++ accessor `ovl.args()`. -/
structure OverloadDecl where
  id : String
  member : Bool
  args : List CelType
  result : CelType
  typeParams : List String
  deriving DecidableEq, Repr

/-- FunctionDecl = { name, overloads } (spec §3). -/
structure FunctionDecl where
  name : String
  overloads : List OverloadDecl
  deriving DecidableEq, Repr

/-- StructTypeField = { name, type } (spec §3). -/
structure StructTypeField where
  name : String
  type : CelType
  deriving DecidableEq, Repr

/-- Modelled from the spec §3: TypeCheckEnv holds the container name and
read-only maps for variables, functions, type names and struct fields
(the C++ TypeCheckEnv implementation is outside the translated file). -/
structure TypeCheckEnv where
  container : String
  vars : List (String × VariableDecl)
  functions : List (String × FunctionDecl)
  typeNames : List (String × CelType)
  structFields : List ((String × String) × StructTypeField)

/-- TypeCheckEnv::LookupFunction. -/
def TypeCheckEnv.lookupFunction (env : TypeCheckEnv) (name : String) : Option FunctionDecl :=
  env.functions.lookup name

/-- TypeCheckEnv::LookupStructField, a read-only map keyed by
(struct name, field name). -/
def TypeCheckEnv.lookupStructField (env : TypeCheckEnv) (structName fieldName : String) :
    Option StructTypeField :=
  env.structFields.lookup (structName, fieldName)

/-- One VariableScope node: its local name→decl bindings and its parent link
(spec §3: an immutable chain whose bottom is the environment). Nodes are
addressed by index into a store so that later insertions into a scope
(InsertVariableIfAbsent) are visible through existing links, as with the
C++ pointer graph. -/
structure ScopeNode where
  vars : List (String × VariableDecl)
  parent : Option Nat

/-- The store of scope nodes created during one check. -/
structure ScopeStore where
  nodes : List ScopeNode

/-- TypeCheckEnv::MakeVariableScope: the root scope over the environment's
variable declarations. -/
def ScopeStore.root (env : TypeCheckEnv) : ScopeStore :=
  ⟨[⟨env.vars, none⟩]⟩

/-- VariableScope::MakeNestedScope: appends an empty child node and returns
its index. -/
def ScopeStore.makeNestedScope (s : ScopeStore) (parent : Nat) : ScopeStore × Nat :=
  (⟨s.nodes ++ [⟨[], some parent⟩]⟩, s.nodes.length)

/-- VariableScope::InsertVariableIfAbsent. -/
def ScopeStore.insertVariableIfAbsent (s : ScopeStore) (idx : Nat) (d : VariableDecl) :
    ScopeStore :=
  match s.nodes[idx]? with
  | none => s
  | some node =>
    match node.vars.lookup d.name with
    | some _ => s
    | none => ⟨s.nodes.set idx ⟨node.vars ++ [(d.name, d)], node.parent⟩⟩

/-- VariableScope::LookupVariable: search this node's bindings, then the
parent chain. Parent links of well-formed stores point to earlier nodes;
a link that does not decrease is treated as absent so the walk terminates. -/
def ScopeStore.lookupVariable (s : ScopeStore) (i : Nat) (name : String) :
    Option VariableDecl :=
  match s.nodes[i]? with
  | none => none
  | some node =>
    match node.vars.lookup name with
    | some d => some d
    | none =>
      match node.parent with
      | none => none
      | some p => if _ : p < i then s.lookupVariable p name else none
termination_by i

/-- Modelled from the spec §4.3: the inference context owns a pool of type
variables, each free or bound to a type; `nextId` feeds fresh names. -/
structure InferenceContext where
  nextId : Nat
  bindings : List (String × CelType)

/-- Names of context-allocated type variables. -/
def freshTypeVarName (n : Nat) : String :=
  "T%" ++ toString n

mutual
/-- Modelled from the spec §3/§4.3 (IsAssignable): dyn is universally
compatible without binding; a free type variable on the declared side adopts
the actual side (and symmetrically); bound variables are followed; null is
assignable to wrappers, `any` and type variables; a wrapper accepts its
primitive; compound types need matching heads and pairwise-assignable
parameters. The fuel only bounds binding-chain following. -/
def isAssignableGo : Nat → InferenceContext → CelType → CelType → Option InferenceContext
  | 0, _, _, _ => none
  | fuel + 1, ctx, actual, declared =>
    if declared = .dyn ∨ actual = .dyn then some ctx
    else
      match actual, declared with
      | a, .typeParam p =>
        (match ctx.bindings.lookup p with
         | some bound => isAssignableGo fuel ctx a bound
         | none => some { ctx with bindings := (p, a) :: ctx.bindings })
      | .typeParam p, d =>
        (match ctx.bindings.lookup p with
         | some bound => isAssignableGo fuel ctx bound d
         | none => some { ctx with bindings := (p, d) :: ctx.bindings })
      | .null, .boolWrapper | .null, .intWrapper | .null, .uintWrapper
      | .null, .doubleWrapper | .null, .stringWrapper | .null, .bytesWrapper
      | .null, .any => some ctx
      | .bool, .boolWrapper | .int, .intWrapper | .uint, .uintWrapper
      | .double, .doubleWrapper | .string, .stringWrapper
      | .bytes, .bytesWrapper => some ctx
      | .list a, .list d => isAssignableGo fuel ctx a d
      | .map ka va, .map kd vd =>
        (match isAssignableGo fuel ctx ka kd with
         | some c2 => isAssignableGo fuel c2 va vd
         | none => none)
      | .struct n, .struct m => if n = m then some ctx else none
      | .abstract n ps, .abstract m qs =>
        if n = m then isAssignableListGo fuel ctx ps qs else none
      | .typeType ps, .typeType qs => isAssignableListGo fuel ctx ps qs
      | a, d => if a = d then some ctx else none
/-- Pairwise assignability of parameter lists, threading bindings. -/
def isAssignableListGo : Nat → InferenceContext → CelTypeList → CelTypeList →
    Option InferenceContext
  | 0, _, _, _ => none
  | _ + 1, ctx, .nil, .nil => some ctx
  | fuel + 1, ctx, .cons a ta, .cons d td =>
    (match isAssignableGo fuel ctx a d with
     | some c2 => isAssignableListGo fuel c2 ta td
     | none => none)
  | _ + 1, _, _, _ => none
end

mutual
/-- Node count of a type term (used only to size assignability fuel). -/
def CelType.size : CelType → Nat
  | .list e => e.size + 1
  | .map k v => k.size + v.size + 1
  | .abstract _ ps => ps.size + 1
  | .typeType ps => ps.size + 1
  | _ => 1
/-- Total node count of a parameter list. -/
def CelTypeList.size : CelTypeList → Nat
  | .nil => 1
  | .cons h t => h.size + t.size + 1
end

/-- Fuel bound for assignability: generous for the translated call sites
(structure sizes plus the weight of recorded bindings). -/
def InferenceContext.fuelBound (ctx : InferenceContext) (a d : CelType) : Nat :=
  ctx.bindings.foldl (fun acc b => acc + b.2.size + 1) (a.size + d.size + 1)

/-- TypeInferenceContext::IsAssignable (spec §4.3); may bind free variables,
returning the updated context on success. -/
def InferenceContext.isAssignable (ctx : InferenceContext) (actual declared : CelType) :
    Option InferenceContext :=
  isAssignableGo (ctx.fuelBound actual declared) ctx actual declared

mutual
/-- Distinct `typeParam` names of a type, in first-occurrence order. -/
def CelType.collectParams : CelType → List String → List String
  | .typeParam n, acc => if acc.contains n then acc else acc ++ [n]
  | .list e, acc => e.collectParams acc
  | .map k v, acc => v.collectParams (k.collectParams acc)
  | .abstract _ ps, acc => ps.collectParams acc
  | .typeType ps, acc => ps.collectParams acc
  | _, acc => acc
/-- Collection over a parameter list. -/
def CelTypeList.collectParams : CelTypeList → List String → List String
  | .nil, acc => acc
  | .cons h t, acc => t.collectParams (h.collectParams acc)
end

mutual
/-- Rename `typeParam` occurrences according to a name substitution. -/
def CelType.renameParams (sub : List (String × String)) : CelType → CelType
  | .typeParam n =>
    (match sub.lookup n with
     | some m => .typeParam m
     | none => .typeParam n)
  | .list e => .list (CelType.renameParams sub e)
  | .map k v => .map (CelType.renameParams sub k) (CelType.renameParams sub v)
  | .abstract n ps => .abstract n (CelTypeList.renameParams sub ps)
  | .typeType ps => .typeType (CelTypeList.renameParams sub ps)
  | t => t
/-- Renaming over a parameter list. -/
def CelTypeList.renameParams (sub : List (String × String)) : CelTypeList → CelTypeList
  | .nil => .nil
  | .cons h t => .cons (CelType.renameParams sub h) (CelTypeList.renameParams sub t)
end

/-- Allocate a fresh context variable for each listed name. -/
def InferenceContext.freshSubst (ctx : InferenceContext) :
    List String → List (String × String) × InferenceContext
  | [] => ([], ctx)
  | n :: rest =>
    let fresh := freshTypeVarName ctx.nextId
    let (subRest, ctx2) :=
      InferenceContext.freshSubst { ctx with nextId := ctx.nextId + 1 } rest
    ((n, fresh) :: subRest, ctx2)

/-- TypeInferenceContext::InstantiateTypeParams (spec §4.3): replace every
distinct `type_param` of the type with a fresh unbound variable. -/
def InferenceContext.instantiateTypeParams (ctx : InferenceContext) (t : CelType) :
    CelType × InferenceContext :=
  let (sub, ctx2) := ctx.freshSubst (t.collectParams [])
  (t.renameParams sub, ctx2)

mutual
/-- Modelled from the spec §4.3 (FinalizeType): substitute every bound
variable with its assignment, leaving still-free variables as dyn. Fuel
bounds binding-chain following. -/
def finalizeTypeGo : Nat → InferenceContext → CelType → CelType
  | 0, _, t => t
  | fuel + 1, ctx, t =>
    match t with
    | .typeParam n =>
      (match ctx.bindings.lookup n with
       | some b => finalizeTypeGo fuel ctx b
       | none => .dyn)
    | .list e => .list (finalizeTypeGo fuel ctx e)
    | .map k v => .map (finalizeTypeGo fuel ctx k) (finalizeTypeGo fuel ctx v)
    | .abstract n ps => .abstract n (finalizeTypeListGo fuel ctx ps)
    | .typeType ps => .typeType (finalizeTypeListGo fuel ctx ps)
    | u => u
/-- Finalisation over a parameter list. -/
def finalizeTypeListGo : Nat → InferenceContext → CelTypeList → CelTypeList
  | 0, _, ps => ps
  | _ + 1, _, .nil => .nil
  | fuel + 1, ctx, .cons h t =>
    .cons (finalizeTypeGo fuel ctx h) (finalizeTypeListGo (fuel + 1) ctx t)
end

/-- TypeInferenceContext::FinalizeType. -/
def InferenceContext.finalizeType (ctx : InferenceContext) (t : CelType) : CelType :=
  finalizeTypeGo (ctx.fuelBound t t) ctx t

/-- TypeInferenceContext::OverloadResolution (spec §4.3): the overall result
type and the surviving overloads. -/
structure OverloadResolution where
  resultType : CelType
  overloads : List OverloadDecl

/-- One candidate overload attempt (spec §4.3 step 2): instantiate the
overload's type parameters fresh and check the arguments pairwise; the
context snapshot/rollback of the C++ is the caller keeping its old context. -/
def resolveOverloadCandidate (ctx : InferenceContext) (ovl : OverloadDecl)
    (argTypes : List CelType) : Option (CelType × InferenceContext) :=
  let (sub, ctx1) := ctx.freshSubst ovl.typeParams
  let params := ovl.args.map (CelType.renameParams sub)
  let result := CelType.renameParams sub ovl.result
  match assignAll ctx1 argTypes params with
  | some ctx2 => some (result, ctx2)
  | none => none
where
  assignAll : InferenceContext → List CelType → List CelType → Option InferenceContext
  | c, [], [] => some c
  | c, a :: restA, d :: restD =>
    (match c.isAssignable a d with
     | some c2 => assignAll c2 restA restD
     | none => none)
  | _, _, _ => none

/-- Modelled from the spec §4.3 (ResolveOverload): filter by call style and
arity, try each candidate with snapshot/rollback, collect survivors; the
result type is the common instantiated result type, else dyn. -/
def InferenceContext.resolveOverload (ctx : InferenceContext) (decl : FunctionDecl)
    (argTypes : List CelType) (isReceiver : Bool) :
    Option (OverloadResolution × InferenceContext) :=
  let cands := decl.overloads.filter
    (fun o => o.member == isReceiver && o.args.length == argTypes.length)
  let stepped := cands.foldl
    (fun acc o =>
      match resolveOverloadCandidate acc.2 o argTypes with
      | some (r, c2) => (acc.1 ++ [(o, r)], c2)
      | none => acc)
    (([] : List (OverloadDecl × CelType)), ctx)
  match stepped.1 with
  | [] => none
  | (_, r1) :: rest =>
    let resultType := if rest.all (fun pr => pr.2 == r1) then r1 else CelType.dyn
    some (⟨resultType, stepped.1.map Prod.fst⟩, stepped.2)

/-- FormatCandidate (type_checker_impl.cc): dot-join the qualifiers. -/
def formatCandidate (qualifiers : List String) : String :=
  String.intercalate "." qualifiers

/-- Dot-separated segments of a container name. -/
def splitDots (s : String) : List String :=
  if s = "" then [] else s.splitOn "."

/-- Modelled from the spec §4.1 (NamespaceGenerator, simple names): candidates
in outer-to-inner, longest-container-first order `c1.…cn.N`, …, `c1.N`, `N`. -/
def containerCands (container : String) (name : String) : List String :=
  let segs := splitDots container
  ((List.range segs.length).reverse.map
    (fun i => formatCandidate (segs.take (i + 1)) ++ "." ++ name)) ++ [name]

/-- Modelled from the spec §4.1 (NamespaceGenerator, qualified names): the
longest qualifier front first, each with the full container-prefixed search.
The index paired with each candidate is the 0-based index of the last matched
qualifier segment — `ResolveQualifiedIdentifier` turns the
`qualifiers.size() - index - 1` unmatched segments back into selects. -/
def qualifiedCands (container : String) (qualifiers : List String) :
    List (String × Nat) :=
  (List.range qualifiers.length).reverse.flatMap
    (fun j => (containerCands container (formatCandidate (qualifiers.take (j + 1)))).map
      (fun c => (c, j)))

/-- Constant kinds (common/constant.h, payloads are irrelevant to typing). -/
inductive Constant where
  | null
  | bool
  | int
  | uint
  | double
  | bytes
  | string
  | duration
  | timestamp
  deriving DecidableEq, Repr

/-- The expression AST (common/expr.h, modelled from the spec §1/§6: per-node
integer ids; identifiers, selects, calls with optional receiver target,
list/map/struct construction with optional-entry flags, comprehensions). -/
inductive Expr where
  | const (exprId : Nat) (c : Constant)
  | ident (exprId : Nat) (name : String)
  | select (exprId : Nat) (operand : Expr) (field : String) (testOnly : Bool)
  | call (exprId : Nat) (target : Option Expr) (function : String) (args : List Expr)
  | list (exprId : Nat) (elements : List (Expr × Bool))
  | map (exprId : Nat) (entries : List (Expr × Expr × Bool))
  | struct (exprId : Nat) (name : String) (fields : List (String × Expr × Bool))
  | comprehension (exprId : Nat) (iterVar : String) (iterRange : Expr) (accuVar : String)
      (accuInit : Expr) (loopCondition : Expr) (loopStep : Expr) (result : Expr)

/-- Expr::id(). -/
def Expr.exprId : Expr → Nat
  | .const i _ => i
  | .ident i _ => i
  | .select i _ _ _ => i
  | .call i _ _ _ => i
  | .list i _ => i
  | .map i _ => i
  | .struct i _ _ => i
  | .comprehension i _ _ _ _ _ _ _ => i

/-- Expr::has_call_expr(). -/
def Expr.hasCallExpr : Expr → Bool
  | .call _ _ _ _ => true
  | _ => false

/-- Expr::has_select_expr(). -/
def Expr.hasSelectExpr : Expr → Bool
  | .select _ _ _ _ => true
  | _ => false

/-- CallExpr::target() (absent on non-calls). -/
def Expr.callTarget : Expr → Option Expr
  | .call _ t _ _ => t
  | _ => none

/-- CallExpr::args(). -/
def Expr.callArgs : Expr → List Expr
  | .call _ _ _ a => a
  | _ => []

/-- CallExpr::function(). -/
def Expr.callFunction : Expr → String
  | .call _ _ f _ => f
  | _ => ""

/-- SelectExpr::operand() (callers guarantee the node is a select). -/
def Expr.selectOperand : Expr → Expr
  | .select _ op _ _ => op
  | e => e

/-- SelectExpr::field(). -/
def Expr.selectField : Expr → String
  | .select _ _ f _ => f
  | _ => ""

/-- SelectExpr::test_only(). -/
def Expr.selectTestOnly : Expr → Bool
  | .select _ _ _ t => t
  | _ => false

/-- ResolveVisitor::FunctionResolution: the narrowed declaration and whether
the call needs the namespaced-function rewrite. -/
structure FunctionResolution where
  decl : FunctionDecl
  namespaceRewrite : Bool

/-- The mutable state of ResolveVisitor during one check: the issue list, the
fatal status, the inference context and the side tables (spec §3), keyed by
expression id. Newest association-list entries win, matching map assignment. -/
structure CheckerState where
  issues : List TypeCheckIssue
  status : Status
  ictx : InferenceContext
  types : List (Nat × CelType)
  attributes : List (Nat × VariableDecl)
  functions : List (Nat × FunctionResolution)
  structTypes : List (Nat × String)
  maybeNamespacedFunctions : List (Nat × List String)
  deferredSelectOperations : List Nat

/-- ResolveVisitor::GetTypeOrDyn. -/
def CheckerState.getTypeOrDyn (st : CheckerState) (e : Expr) : CelType :=
  (st.types.lookup e.exprId).getD .dyn

/-- Map assignment `types_[&expr] = t`. -/
def CheckerState.setType (st : CheckerState) (e : Expr) (t : CelType) : CheckerState :=
  { st with types := (e.exprId, t) :: st.types }

/-- ResolveVisitor::ReportMissingReference. -/
def CheckerState.reportMissingReference (st : CheckerState) (si : SourceInfo)
    (container : String) (e : Expr) (name : String) : CheckerState :=
  { st with issues := st.issues ++ [TypeCheckIssue.createError
      (computeSourceLocation si e.exprId)
      ("undeclared reference to '" ++ name ++ "' (in container '" ++ container ++ "')")] }

/-- ResolveVisitor::ReportUndefinedField. -/
def CheckerState.reportUndefinedField (st : CheckerState) (si : SourceInfo)
    (exprId : Nat) (fieldName structName : String) : CheckerState :=
  { st with issues := st.issues ++ [TypeCheckIssue.createError
      (computeSourceLocation si exprId)
      ("undefined field '" ++ fieldName ++ "' not found in struct '" ++ structName ++ "'")] }

/-- FreeListType (type_checker_impl.cc): `list(type_param "element_type")`. -/
def freeListType : CelType :=
  .list (.typeParam "element_type")

/-- FreeMapType (type_checker_impl.cc):
`map(type_param "key_type", type_param "value_type")`. -/
def freeMapType : CelType :=
  .map (.typeParam "key_type") (.typeParam "value_type")

/-- The per-element type of the PostVisitList loop: the element's recorded
type, with an optional element of optional type contributing the optional's
parameter. -/
def listElementType (st : CheckerState) (element : Expr × Bool) : CelType :=
  let valueType := st.getTypeOrDyn element.1
  if element.2 then
    match valueType.optionalParam with
    | some p => p
    | none => valueType
  else valueType

/-- One widening step of the list/map loops: the first type seeds the running
type; a later type equal to the running type keeps it, a different one
collapses it to dyn. -/
def widenOverall (overall : Option CelType) (valueType : CelType) : Option CelType :=
  match overall with
  | some o => if valueType = o then some o else some .dyn
  | none => some valueType

/-- ResolveVisitor::PostVisitList (type_checker_impl.cc): homogeneous
widening over the elements; an empty list gets the instantiated free list
type `list(α)`. -/
def postVisitList (st : CheckerState) (expr : Expr) (elements : List (Expr × Bool)) :
    CheckerState :=
  let overallValueType :=
    elements.foldl (fun acc el => widenOverall acc (listElementType st el)) none
  match overallValueType with
  | some t => st.setType expr (.list t)
  | none =>
    let (t, ictx2) := st.ictx.instantiateTypeParams freeListType
    { st with ictx := ictx2, types := (expr.exprId, t) :: st.types }

/-- The per-entry value type of the PostVisitMap loop (optional entries of
optional type contribute the optional's parameter). -/
def mapEntryValueType (st : CheckerState) (entry : Expr × Expr × Bool) : CelType :=
  let valueType := st.getTypeOrDyn entry.2.1
  if entry.2.2 then
    match valueType.optionalParam with
    | some p => p
    | none => valueType
  else valueType

/-- The unsupported-map-key warning of the PostVisitMap loop. -/
def mapKeyWarning (si : SourceInfo) (key : Expr) (keyType : CelType) : TypeCheckIssue :=
  ⟨.warning, computeSourceLocation si key.exprId,
    "unsupported map key type: " ++ keyType.debugString⟩

/-- The warnings the PostVisitMap entry loop emits: one per entry whose key
type is unsupported, naming that key type. -/
def mapKeyWarnings (si : SourceInfo) (st : CheckerState)
    (entries : List (Expr × Expr × Bool)) : List TypeCheckIssue :=
  (entries.filter (fun e => !(isSupportedKeyType (st.getTypeOrDyn e.1)))).map
    (fun e => mapKeyWarning si e.1 (st.getTypeOrDyn e.1))

/-- The entry loop body of PostVisitMap: an unsupported key type pushes a
warning, then key and value types are widened independently. -/
def postVisitMapStep (si : SourceInfo)
    (acc : CheckerState × Option CelType × Option CelType) (entry : Expr × Expr × Bool) :
    CheckerState × Option CelType × Option CelType :=
  let keyType := acc.1.getTypeOrDyn entry.1
  let st1 :=
    if isSupportedKeyType keyType then acc.1
    else { acc.1 with issues := acc.1.issues ++ [mapKeyWarning si entry.1 keyType] }
  (st1, widenOverall acc.2.1 keyType, widenOverall acc.2.2 (mapEntryValueType acc.1 entry))

/-- ResolveVisitor::PostVisitMap (type_checker_impl.cc): for every entry the
key type is checked against IsSupportedKeyType — an unsupported key pushes a
warning — and keys and values are widened independently; an empty map gets
the instantiated free map type `map(α, β)`. -/
def postVisitMap (si : SourceInfo) (st : CheckerState) (expr : Expr)
    (entries : List (Expr × Expr × Bool)) : CheckerState :=
  let stepped := entries.foldl (postVisitMapStep si)
    (st, (none : Option CelType), (none : Option CelType))
  match stepped.2.1, stepped.2.2 with
  | some keyType, some valueType => stepped.1.setType expr (.map keyType valueType)
  | none, none =>
    let (t, ictx2) := stepped.1.ictx.instantiateTypeParams freeMapType
    { stepped.1 with ictx := ictx2, types := (expr.exprId, t) :: stepped.1.types }
  | _, _ =>
    let mismatch : Status :=
      .internalError "Map has mismatched key and value type inference resolution"
    { stepped.1 with status := stepped.1.status.update mismatch }

/-- The unsupported-select-operand error message. -/
def unsupportedSelectIssue (si : SourceInfo) (exprId : Nat) (operandType : CelType) :
    TypeCheckIssue :=
  TypeCheckIssue.createError (computeSourceLocation si exprId)
    ("expression of type '" ++ operandType.debugString ++
      "' cannot be the operand of a select operation")

/-- The inner lambda of ResolveSelectOperation: dyn/any yield dyn; a struct
consults the environment's field map; a map with a string-assignable key
yields its value type; everything else falls through to the
unsupported-operand error. -/
def selectImpl (env : TypeCheckEnv) (si : SourceInfo) (st : CheckerState) (expr : Expr)
    (field : String) (operandType : CelType) : CheckerState × Option CelType :=
  if operandType.kind = .dyn ∨ operandType.kind = .any then (st, some .dyn)
  else
    match operandType with
    | .struct structName =>
      (match env.lookupStructField structName field with
       | none => (st.reportUndefinedField si expr.exprId field structName, none)
       | some fieldInfo => (st, some fieldInfo.type))
    | .map keyType valueType =>
      (match st.ictx.isAssignable .string keyType with
       | some ictx2 => ({ st with ictx := ictx2 }, some valueType)
       | none =>
         ({ st with issues := st.issues ++ [unsupportedSelectIssue si expr.exprId operandType] },
          none))
    | _ =>
      ({ st with issues := st.issues ++ [unsupportedSelectIssue si expr.exprId operandType] },
       none)

/-- ResolveVisitor::ResolveSelectOperation (type_checker_impl.cc): an optional
operand is peeled first (short-hand optional chaining); on success a
test-only select is typed bool, otherwise the projected type is recorded. -/
def resolveSelectOperation (env : TypeCheckEnv) (si : SourceInfo) (st : CheckerState)
    (expr : Expr) (field : String) (operand : Expr) : CheckerState :=
  let operandType := st.getTypeOrDyn operand
  let stepped :=
    match operandType.optionalParam with
    | some heldType => selectImpl env si st expr field heldType
    | none => selectImpl env si st expr field operandType
  match stepped.2 with
  | some resultType =>
    if expr.selectTestOnly then stepped.1.setType expr .bool
    else stepped.1.setType expr resultType
  | none => stepped.1

/-- ResolveVisitor::PostVisitSelect: selects marked deferred by the
identifier walk are skipped, the rest resolve immediately. -/
def postVisitSelect (env : TypeCheckEnv) (si : SourceInfo) (st : CheckerState)
    (expr : Expr) : CheckerState :=
  if st.deferredSelectOperations.contains expr.exprId then st
  else resolveSelectOperation env si st expr expr.selectField expr.selectOperand

/-- ComprehensionArg (common/ast_visitor.h): which comprehension
sub-expression is being visited. -/
inductive ComprehensionArg where
  | iterRange
  | accuInit
  | loopCondition
  | loopStep
  | result
  deriving DecidableEq, Repr

/-- ResolveVisitor::ComprehensionScope: the comprehension node, the scope it
was entered in and its two nested scopes. -/
structure ComprehensionScopeRec where
  comprehensionExprId : Nat
  parent : Nat
  accuScope : Nat
  iterScope : Nat

/-- ResolveVisitor::PreVisitComprehension (type_checker_impl.cc): create the
accu scope nested in the current scope and the iter scope nested in the accu
scope, both initially empty. -/
def preVisitComprehension (store : ScopeStore) (currentScope : Nat) (expr : Expr) :
    ScopeStore × ComprehensionScopeRec :=
  let (store1, accuScopeIdx) := store.makeNestedScope currentScope
  let (store2, iterScopeIdx) := store1.makeNestedScope accuScopeIdx
  (store2, ⟨expr.exprId, currentScope, accuScopeIdx, iterScopeIdx⟩)

/-- The scope switch of PreVisitComprehensionSubexpression: loop_condition
and result run in the accu scope, loop_step in the iter scope, and the
default branch (iter_range, accu_init) restores the parent scope. -/
def comprehensionSubexpressionScope (scope : ComprehensionScopeRec)
    (arg : ComprehensionArg) : Nat :=
  match arg with
  | .loopCondition => scope.accuScope
  | .loopStep => scope.iterScope
  | .result => scope.accuScope
  | _ => scope.parent

/-- The ITER_RANGE case of PostVisitComprehensionSubexpression: the iter
variable's type comes from the range type (list element, map key, dyn), any
other range kind is an error and leaves dyn; the decl is inserted into the
iter scope. -/
def postVisitIterRange (si : SourceInfo) (st : CheckerState) (store : ScopeStore)
    (scope : ComprehensionScopeRec) (expr : Expr) (iterVar : String)
    (iterRangeExpr : Expr) : CheckerState × ScopeStore :=
  let rangeType := st.getTypeOrDyn iterRangeExpr
  let stepped :=
    match rangeType with
    | .list elemType => (elemType, st)
    | .map keyType _ => (keyType, st)
    | .dyn => (CelType.dyn, st)
    | _ =>
      (CelType.dyn,
       { st with issues := st.issues ++ [TypeCheckIssue.createError
          (computeSourceLocation si expr.exprId)
          ("expression of type '" ++ rangeType.debugString ++
            "' cannot be the range of a comprehension (must be list, map, or dynamic)")] })
  (stepped.2,
   store.insertVariableIfAbsent scope.iterScope (makeVariableDecl iterVar stepped.1))

/-- The ACCU_INIT case of PostVisitComprehensionSubexpression: the accu
variable takes the accu_init type and is inserted into the accu scope. -/
def postVisitAccuInit (st : CheckerState) (store : ScopeStore)
    (scope : ComprehensionScopeRec) (accuVar : String) (accuInitExpr : Expr) :
    ScopeStore :=
  store.insertVariableIfAbsent scope.accuScope
    (makeVariableDecl accuVar (st.getTypeOrDyn accuInitExpr))

/-- ResolveVisitor::PostVisitComprehension: the comprehension's type is the
result sub-expression's type. -/
def postVisitComprehension (st : CheckerState) (expr : Expr) (resultExpr : Expr) :
    CheckerState :=
  st.setType expr (st.getTypeOrDyn resultExpr)

/-- Whether a declaration has an overload matching the call style and arity
(the inner loop of ResolveFunctionCallShape). -/
def shapeMatches (decl : FunctionDecl) (argCount : Nat) (isReceiver : Bool) : Bool :=
  decl.overloads.any (fun o => o.member == isReceiver && o.args.length == argCount)

/-- The candidate loop of ResolveFunctionCallShape: a name hit without a
matching overload shape resets the declaration and keeps searching. -/
def resolveFunctionCallShapeGo (env : TypeCheckEnv) (argCount : Nat) (isReceiver : Bool) :
    List String → Option FunctionDecl
  | [] => none
  | c :: rest =>
    match env.lookupFunction c with
    | none => resolveFunctionCallShapeGo env argCount isReceiver rest
    | some decl =>
      if shapeMatches decl argCount isReceiver then some decl
      else resolveFunctionCallShapeGo env argCount isReceiver rest

/-- ResolveVisitor::ResolveFunctionCallShape (type_checker_impl.cc): walk the
namespace candidates of the function name and return the first declaration
with an overload of the right call style and arity. -/
def resolveFunctionCallShape (env : TypeCheckEnv) (functionName : String)
    (argCount : Nat) (isReceiver : Bool) : Option FunctionDecl :=
  resolveFunctionCallShapeGo env argCount isReceiver
    (containerCands env.container functionName)

/-- FunctionDecl::AddOverload, modelled from the spec §3 invariant: adding
fails on a duplicate id or duplicate (member, parameter types) signature. -/
def FunctionDecl.addOverload (decl : FunctionDecl) (o : OverloadDecl) :
    Option FunctionDecl :=
  if decl.overloads.any (fun e => e.id == o.id || (e.member == o.member && e.args == o.args))
  then none
  else some { decl with overloads := decl.overloads ++ [o] }

/-- The no-matching-overload error of ResolveFunctionOverloads. -/
def noMatchingOverloadIssue (si : SourceInfo) (exprId : Nat) (declName : String)
    (argTypes : List CelType) : TypeCheckIssue :=
  TypeCheckIssue.createError (computeSourceLocation si exprId)
    ("found no matching overload for '" ++ declName ++ "' applied to (" ++
      String.intercalate ", " (argTypes.map CelType.debugString) ++ ")")

/-- The argument types of a call as ResolveFunctionOverloads gathers them:
the receiver's recorded type first for a receiver-style call, then the
argument types. -/
def callArgTypes (st : CheckerState) (expr : Expr) (isReceiver : Bool) : List CelType :=
  (if isReceiver then
    match expr.callTarget with
    | some target => [st.getTypeOrDyn target]
    | none => []
  else []) ++ expr.callArgs.map st.getTypeOrDyn

/-- The narrowing loop of ResolveFunctionOverloads: re-add each surviving
overload to a fresh declaration with the original name; a failed re-insertion
(a broken invariant) turns the status into an internal error. -/
def narrowedFunctionDecl (declName : String) (status : Status)
    (overloads : List OverloadDecl) : FunctionDecl × Status :=
  overloads.foldl
    (fun acc o =>
      match acc.1.addOverload o with
      | some d2 => (d2, acc.2)
      | none =>
        let failed : Status :=
          .internalError "failed to add overload to resolved function declaration"
        (acc.1, acc.2.update failed))
    (({ name := declName, overloads := [] } : FunctionDecl), status)

/-- ResolveVisitor::ResolveFunctionOverloads (type_checker_impl.cc): gather
the argument types (receiver first when present), run overload resolution —
failure emits the no-matching-overload error — and on success record the
narrowed declaration and the result type; a failed re-insertion while
narrowing raises the internal status. -/
def resolveFunctionOverloads (si : SourceInfo) (st : CheckerState) (expr : Expr)
    (decl : FunctionDecl) (isReceiver isNamespaced : Bool) : CheckerState :=
  let argTypes := callArgTypes st expr isReceiver
  match st.ictx.resolveOverload decl argTypes isReceiver with
  | none =>
    { st with issues := st.issues ++ [noMatchingOverloadIssue si expr.exprId decl.name argTypes] }
  | some (resolution, ictx2) =>
    let narrowed := narrowedFunctionDecl decl.name st.status resolution.overloads
    { st with
        ictx := ictx2,
        status := narrowed.2,
        functions := (expr.exprId, ⟨narrowed.1, isNamespaced⟩) :: st.functions,
        types := (expr.exprId, resolution.resultType) :: st.types }

/-- The candidate loop of ResolveSimpleIdentifier: first scope hit wins. -/
def firstScopeHit (store : ScopeStore) (currentScope : Nat) :
    List String → Option VariableDecl
  | [] => none
  | c :: rest =>
    match store.lookupVariable currentScope c with
    | some d => some d
    | none => firstScopeHit store currentScope rest

/-- ResolveVisitor::ResolveSimpleIdentifier (type_checker_impl.cc): look the
name up through the namespace candidates against the current scope; a miss
reports an undeclared reference, a hit records the declaration and its
instantiated type. -/
def resolveSimpleIdentifier (env : TypeCheckEnv) (si : SourceInfo) (store : ScopeStore)
    (currentScope : Nat) (st : CheckerState) (expr : Expr) (name : String) :
    CheckerState :=
  match firstScopeHit store currentScope (containerCands env.container name) with
  | none => st.reportMissingReference si env.container expr name
  | some decl =>
    let (t, ictx2) := st.ictx.instantiateTypeParams decl.type
    { st with
        ictx := ictx2,
        attributes := (expr.exprId, decl) :: st.attributes,
        types := (expr.exprId, t) :: st.types }

/-- The candidate loop of ResolveQualifiedIdentifier: first scope hit wins,
remembering how many leading qualifier segments the candidate consumed. -/
def firstQualifiedHit (store : ScopeStore) (currentScope : Nat) :
    List (String × Nat) → Option (VariableDecl × Nat)
  | [] => none
  | (c, j) :: rest =>
    match store.lookupVariable currentScope c with
    | some d => some (d, j)
    | none => firstQualifiedHit store currentScope rest

/-- The descent of ResolveQualifiedIdentifier from the chain root: peel
`numSelects` select layers, collecting the select nodes outermost-first and
returning the expression the variable declaration attaches to. -/
def collectSelectOps : Expr → Nat → Expr × List Expr
  | root, 0 => (root, [])
  | root, n + 1 =>
    let stepped := collectSelectOps root.selectOperand n
    (stepped.1, root :: stepped.2)

/-- ResolveVisitor::ResolveQualifiedIdentifier (type_checker_impl.cc): a
single qualifier resolves as a simple identifier; otherwise the longest
qualifier front naming a variable wins, the remaining segments become select
operations resolved innermost-first over the variable's type, and a total
miss reports the dotted name as an undeclared reference. -/
def resolveQualifiedIdentifier (env : TypeCheckEnv) (si : SourceInfo) (store : ScopeStore)
    (currentScope : Nat) (st : CheckerState) (expr : Expr) (qualifiers : List String) :
    CheckerState :=
  if qualifiers.length == 1 then
    resolveSimpleIdentifier env si store currentScope st expr (qualifiers.headD "")
  else
    match firstQualifiedHit store currentScope (qualifiedCands env.container qualifiers) with
    | none => st.reportMissingReference si env.container expr (formatCandidate qualifiers)
    | some (decl, segmentIndex) =>
      let numSelects := qualifiers.length - segmentIndex - 1
      let descent := collectSelectOps expr numSelects
      let (t, ictx2) := st.ictx.instantiateTypeParams decl.type
      let st1 := { st with
        ictx := ictx2,
        attributes := (descent.1.exprId, decl) :: st.attributes,
        types := (descent.1.exprId, t) :: st.types }
      descent.2.reverse.foldl
        (fun s sel => resolveSelectOperation env si s sel sel.selectField sel.selectOperand)
        st1

/-- The outcome of the ancestor walk of PostVisitIdent. -/
structure IdentWalkResult where
  qualifiers : List String
  deferredIds : List Nat
  rootCandidate : Expr
  receiverCall : Option Expr

/-- The ancestor walk of PostVisitIdent (type_checker_impl.cc), over the
ancestors from the innermost parent outwards: a call whose receiver target is
the chain so far captures the chain; a non-select parent stops the walk; a
select parent contributes its field, is marked deferred and becomes the chain
root — stopping right after a test-only select. Node identity (the C++
pointer comparison) is the unique expression id. -/
def identWalkGo : List Expr → List String → List Nat → Expr → IdentWalkResult
  | [], qualifiers, deferredIds, rootCandidate =>
    ⟨qualifiers, deferredIds, rootCandidate, none⟩
  | parent :: rest, qualifiers, deferredIds, rootCandidate =>
    if parent.hasCallExpr &&
        (match parent.callTarget with
         | some t => t.exprId == rootCandidate.exprId
         | none => false) then
      ⟨qualifiers, deferredIds, rootCandidate, some parent⟩
    else if ¬ parent.hasSelectExpr then
      ⟨qualifiers, deferredIds, rootCandidate, none⟩
    else
      let qualifiers2 := qualifiers ++ [parent.selectField]
      let deferredIds2 := deferredIds ++ [parent.exprId]
      if parent.selectTestOnly then ⟨qualifiers2, deferredIds2, parent, none⟩
      else identWalkGo rest qualifiers2 deferredIds2 parent

/-- ResolveVisitor::PostVisitIdent (type_checker_impl.cc). The traversal
stack has the root at the front and the identifier itself on top (last); a
sole identifier resolves simply, otherwise the ancestor walk either records
the chain as a maybe-namespaced function under the receiver call or resolves
it as a qualified identifier, marking walked selects deferred either way. -/
def postVisitIdent (env : TypeCheckEnv) (si : SourceInfo) (store : ScopeStore)
    (currentScope : Nat) (st : CheckerState) (stack : List Expr) (expr : Expr)
    (name : String) : CheckerState :=
  if stack.length == 1 then
    resolveSimpleIdentifier env si store currentScope st expr name
  else
    let walk := identWalkGo stack.dropLast.reverse [name] [] expr
    let st1 := { st with
      deferredSelectOperations := st.deferredSelectOperations ++ walk.deferredIds }
    match walk.receiverCall with
    | none =>
      resolveQualifiedIdentifier env si store currentScope st1 walk.rootCandidate
        walk.qualifiers
    | some callExpr =>
      { st1 with maybeNamespacedFunctions :=
          (callExpr.exprId, walk.qualifiers) :: st1.maybeNamespacedFunctions }

/-- The shared tail of PostVisitCall: arity counts a present receiver, shape
resolution finds the declaration — a miss reports an undeclared reference —
and overload resolution finishes the call. -/
def postVisitCallGeneric (env : TypeCheckEnv) (si : SourceInfo) (st : CheckerState)
    (expr : Expr) : CheckerState :=
  let argCount := expr.callArgs.length + (if expr.callTarget.isSome then 1 else 0)
  match resolveFunctionCallShape env expr.callFunction argCount expr.callTarget.isSome with
  | some decl =>
    resolveFunctionOverloads si st expr decl expr.callTarget.isSome false
  | none => st.reportMissingReference si env.container expr expr.callFunction

/-- ResolveVisitor::PostVisitCall (type_checker_impl.cc): a call recorded as
maybe-namespaced first tries `dotjoin(qualifiers) + "." + function` as a
non-receiver call of the plain argument arity; a hit resolves it as a
namespaced call, a miss resolves the deferred receiver chain as a qualified
identifier and falls through to the normal receiver-call path. -/
def postVisitCall (env : TypeCheckEnv) (si : SourceInfo) (store : ScopeStore)
    (currentScope : Nat) (st : CheckerState) (expr : Expr) : CheckerState :=
  match st.maybeNamespacedFunctions.lookup expr.exprId with
  | some qualifiers =>
    let namespacedName := formatCandidate qualifiers ++ "." ++ expr.callFunction
    (match resolveFunctionCallShape env namespacedName expr.callArgs.length false with
     | some decl => resolveFunctionOverloads si st expr decl false true
     | none =>
       let st1 :=
         match expr.callTarget with
         | some target =>
           resolveQualifiedIdentifier env si store currentScope st target qualifiers
         | none => st
       postVisitCallGeneric env si st1 expr)
  | none => postVisitCallGeneric env si st expr

/-- Primitive cases of the flattened AST type (base/ast_internal/expr.h). -/
inductive AstPrimitiveType where
  | bool
  | int64
  | uint64
  | double
  | string
  | bytes
  deriving DecidableEq, Repr

/-- Well-known-type cases of the flattened AST type. -/
inductive AstWellKnownType where
  | any
  | duration
  | timestamp
  deriving DecidableEq, Repr

/-- The flattened AST type stamped into the output type map (spec §6). -/
inductive AstType where
  | dyn
  | error
  | null
  | primitive (p : AstPrimitiveType)
  | wrapper (p : AstPrimitiveType)
  | wellKnown (w : AstWellKnownType)
  | list (elem : AstType)
  | map (key value : AstType)
  | message (name : String)
  | abstract (name : String) (params : List AstType)
  | type (param : Option AstType)

mutual
/-- FlattenType (type_checker_impl.cc): map every checker type kind onto the
AST type form; remaining free type params become dyn; a reified type with
more than one parameter is an internal error. -/
def flattenType : CelType → Except String AstType
  | .dyn => .ok .dyn
  | .error => .ok .error
  | .null => .ok .null
  | .bool => .ok (.primitive .bool)
  | .int => .ok (.primitive .int64)
  | .uint => .ok (.primitive .uint64)
  | .double => .ok (.primitive .double)
  | .string => .ok (.primitive .string)
  | .bytes => .ok (.primitive .bytes)
  | .duration => .ok (.wellKnown .duration)
  | .timestamp => .ok (.wellKnown .timestamp)
  | .struct n => .ok (.message n)
  | .list e =>
    (match flattenType e with
     | .ok elem => .ok (.list elem)
     | .error msg => .error msg)
  | .map k v =>
    (match flattenType k with
     | .ok key =>
       (match flattenType v with
        | .ok value => .ok (.map key value)
        | .error msg => .error msg)
     | .error msg => .error msg)
  | .abstract n ps =>
    (match flattenTypeList ps with
     | .ok params => .ok (.abstract n params)
     | .error msg => .error msg)
  | .boolWrapper => .ok (.wrapper .bool)
  | .intWrapper => .ok (.wrapper .int64)
  | .uintWrapper => .ok (.wrapper .uint64)
  | .doubleWrapper => .ok (.wrapper .double)
  | .stringWrapper => .ok (.wrapper .string)
  | .bytesWrapper => .ok (.wrapper .bytes)
  | .typeParam _ => .ok .dyn
  | .typeType ps =>
    (match ps with
     | .nil => .ok (.type none)
     | .cons p .nil =>
       (match flattenType p with
        | .ok param => .ok (.type (some param))
        | .error msg => .error msg)
     | _ => .error "Unsupported type: type with multiple parameters")
  | .any => .ok (.wellKnown .any)
/-- FlattenAbstractType's parameter loop. -/
def flattenTypeList : CelTypeList → Except String (List AstType)
  | .nil => .ok []
  | .cons h t =>
    (match flattenType h with
     | .ok h2 =>
       (match flattenTypeList t with
        | .ok t2 => .ok (h2 :: t2)
        | .error msg => .error msg)
     | .error msg => .error msg)
end

/-- A reference-map entry: resolved name and overload ids (spec §6). -/
structure Reference where
  name : String
  overloadIds : List String

/-- Rewrites of the output AST applied by ResolveRewriter. -/
def Expr.setIdentName : Expr → String → Expr
  | .ident i _, n => .ident i n
  | e, _ => e

/-- CallExpr::set_function on the output AST. -/
def Expr.setCallFunction : Expr → String → Expr
  | .call i t _ a, n => .call i t n a
  | e, _ => e

/-- CallExpr::set_target(nullptr) on the output AST. -/
def Expr.clearCallTarget : Expr → Expr
  | .call i _ f a => .call i none f a
  | e => e

/-- StructExpr::set_name on the output AST. -/
def Expr.setStructName : Expr → String → Expr
  | .struct i _ f, n => .struct i n f
  | e, _ => e

/-- The output maps built by the rewrite pass and its status. -/
structure RewriteState where
  referenceMap : List (Nat × Reference)
  typeMap : List (Nat × AstType)
  status : Status

/-- ResolveRewriter::PostVisitRewrite (type_checker_impl.cc) on one node: an
attribute hit stamps the resolved variable name; else a function hit stamps
the declaration name and all surviving overload ids, rewrites the call's
function name and clears the receiver target when the namespaced rewrite is
needed; else a struct-type hit stamps the resolved type name. Afterwards a
recorded type is finalized, flattened and stamped into the type map (a
flattening failure updates the status instead). -/
def postVisitRewrite (v : CheckerState) (rw : RewriteState) (expr : Expr) :
    Expr × RewriteState × Bool :=
  let stepped :=
    match v.attributes.lookup expr.exprId with
    | some decl =>
      let r := (rw.referenceMap.lookup expr.exprId).getD ⟨"", []⟩
      (expr.setIdentName decl.name,
       { rw with referenceMap :=
          (expr.exprId, { r with name := decl.name }) :: rw.referenceMap },
       true)
    | none =>
      match v.functions.lookup expr.exprId with
      | some fr =>
        let r := (rw.referenceMap.lookup expr.exprId).getD ⟨"", []⟩
        let r2 : Reference :=
          ⟨fr.decl.name, r.overloadIds ++ fr.decl.overloads.map (fun o => o.id)⟩
        let e2 := expr.setCallFunction fr.decl.name
        let e3 :=
          if fr.namespaceRewrite && e2.callTarget.isSome then e2.clearCallTarget else e2
        (e3, { rw with referenceMap := (expr.exprId, r2) :: rw.referenceMap }, true)
      | none =>
        match v.structTypes.lookup expr.exprId with
        | some resolvedName =>
          let r := (rw.referenceMap.lookup expr.exprId).getD ⟨"", []⟩
          (expr.setStructName resolvedName,
           { rw with referenceMap :=
              (expr.exprId, { r with name := resolvedName }) :: rw.referenceMap },
           true)
        | none => (expr, rw, false)
  match v.types.lookup expr.exprId with
  | some t =>
    (match flattenType (v.ictx.finalizeType t) with
     | .ok flat =>
       (stepped.1,
        { stepped.2.1 with typeMap := (expr.exprId, flat) :: stepped.2.1.typeMap },
        true)
     | .error msg =>
       (stepped.1,
        { stepped.2.1 with status := stepped.2.1.status.update (.internalError msg) },
        stepped.2.2))
  | none => stepped

/-- The output AST (base/ast_internal/ast_impl.h as the checker uses it). -/
structure AstImpl where
  rootExpr : Expr
  sourceInfo : SourceInfo
  referenceMap : List (Nat × Reference)
  typeMap : List (Nat × AstType)
  isChecked : Bool

/-- ValidationResult (checker/validation_result.h): the issues, and the
checked AST unless it was discarded. -/
structure ValidationResult where
  issues : List TypeCheckIssue
  ast : Option AstImpl

/-- The tail of TypeCheckerImpl::Check after the resolve traversal
(type_checker_impl.cc lines 1116-1137): a visitor fatal status propagates as
an operational failure; then, if any accumulated issue has error severity,
the result carries only the issues; otherwise the rewrite pass runs — its
fatal status also propagating — and the result carries the rewritten AST
with is_checked set. The traversal itself is summarised by the issue list,
the visitor status and the rewrite function it determines. -/
def checkTail (ast : AstImpl) (issues : List TypeCheckIssue) (visitorStatus : Status)
    (rewrite : AstImpl → AstImpl × Status) : Except String ValidationResult :=
  match visitorStatus with
  | .internalError m => .error m
  | .ok =>
    if issues.any (fun issue => issue.severity == .error) then
      .ok ⟨issues, none⟩
    else
      let rewritten := rewrite ast
      match rewritten.2 with
      | .internalError m => .error m
      | .ok => .ok ⟨issues, some { rewritten.1 with isChecked := true }⟩

/-- C2. The claim reads ComputeSourceLocation as: line is the index of the
greatest line offset ≤ the absolute position plus one, column is the absolute
position minus that offset plus one. The translated loop instead breaks as
soon as `absolute_position >= offset`, so with line offsets [0, 5] and
absolute position 7 (id 1) the code reports (1, 7) where the specified
arithmetic gives (2, 3): the line/column computation after the loop is dead
for any position at or past the first line start. -/
theorem computeSourceLocation_divergence :
    computeSourceLocation ⟨[(1, 7)], [0, 5]⟩ 1 = ⟨1, 7⟩ ∧
    specSourceLocation [0, 5] 7 = some ⟨2, 3⟩ ∧
    computeSourceLocation ⟨[(1, 7)], [0, 5]⟩ 1 ≠ SourceLocation.mk 2 3 := by
  refine ⟨by decide, by decide, by decide⟩

/-- C1: when the Check tail returns a ValidationResult, the AST is absent
exactly when some accumulated issue has error severity; otherwise the result
carries the rewritten AST with is_checked set to true, and in both cases the
issues are returned unchanged. -/
theorem check_error_latching (ast : AstImpl) (issues : List TypeCheckIssue)
    (visitorStatus : Status) (rewrite : AstImpl → AstImpl × Status)
    (r : ValidationResult) (h : checkTail ast issues visitorStatus rewrite = .ok r) :
    (r.ast = none ↔ issues.any (fun issue => issue.severity == .error) = true) ∧
    r.issues = issues ∧
    (∀ a, r.ast = some a →
      a.isChecked = true ∧ a = { (rewrite ast).1 with isChecked := true }) := by
  cases visitorStatus with
  | internalError m => simp [checkTail] at h
  | ok =>
    by_cases he : issues.any (fun issue => issue.severity == .error) = true
    · have hr : r = ⟨issues, none⟩ := by
        have := h
        simp [checkTail, he] at this
        exact this.symm
      subst hr
      refine ⟨by simp [he], rfl, by intro a ha; simp at ha⟩
    · cases hrw : (rewrite ast).2 with
      | internalError m =>
        exfalso
        simp [checkTail, he, hrw] at h
      | ok =>
        have hr : r = ⟨issues, some { (rewrite ast).1 with isChecked := true }⟩ := by
          have := h
          simp [checkTail, he, hrw] at this
          exact this.symm
        subst hr
        refine ⟨by simp [he], rfl, ?_⟩
        intro a ha
        simp at ha
        exact ⟨by rw [← ha], ha.symm⟩

/-- C1 witness: a single error-severity issue discards the AST. -/
theorem check_error_latching_witness :
    (((⟨[⟨.error, {}, "boom"⟩], none⟩ : ValidationResult)).ast = none ↔
      ([(⟨.error, {}, "boom"⟩ : TypeCheckIssue)]).any
        (fun issue => issue.severity == .error) = true) ∧
    ((⟨[⟨.error, {}, "boom"⟩], none⟩ : ValidationResult)).issues =
      [(⟨.error, {}, "boom"⟩ : TypeCheckIssue)] ∧
    (∀ a, ((⟨[⟨.error, {}, "boom"⟩], none⟩ : ValidationResult)).ast = some a →
      a.isChecked = true ∧
      a = { ((fun ast => (ast, Status.ok))
              (⟨.ident 1 "x", ⟨[], []⟩, [], [], false⟩ : AstImpl)).1 with isChecked := true }) :=
  check_error_latching ⟨.ident 1 "x", ⟨[], []⟩, [], [], false⟩
    [⟨.error, {}, "boom"⟩] .ok (fun ast => (ast, Status.ok)) ⟨[⟨.error, {}, "boom"⟩], none⟩ rfl

/-- all over a mapped list tests the composite predicate. -/
theorem list_all_map {α β : Type _} (f : α → β) (p : β → Bool) (l : List α) :
    (l.map f).all p = l.all (fun x => p (f x)) := by
  induction l with
  | nil => rfl
  | cons x xs ih => simp [ih]

/-- Widening a running dyn stays dyn. -/
theorem widenOverall_dyn_foldl (ts : List CelType) :
    ts.foldl widenOverall (some .dyn) = some .dyn := by
  induction ts with
  | nil => rfl
  | cons t rest ih =>
    have hstep : widenOverall (some .dyn) t = some .dyn := by
      by_cases h : t = CelType.dyn <;> simp [widenOverall, h]
    simpa [hstep] using ih

/-- The list/map widening loop computes the seed type when every later type
equals it, and dyn otherwise — the collapse happens at the first differing
element and is never undone. -/
theorem widenOverall_foldl_spec (t0 : CelType) (ts : List CelType) :
    ts.foldl widenOverall (some t0) =
      some (if ts.all (fun t => t = t0) then t0 else .dyn) := by
  induction ts with
  | nil => simp
  | cons t rest ih =>
    by_cases h : t = t0
    · subst h
      simpa [widenOverall] using ih
    · simp [widenOverall, h, widenOverall_dyn_foldl]

/-- C8: a non-empty list literal is typed `list(T)` where `T` is the first
element's contributed type if every later element contributes the same type
and dyn otherwise; one widening step collapses exactly on the first differing
type; an optional element of optional type contributes the optional's
parameter type; and an empty list is typed `list(α)` for a freshly allocated
type variable. -/
theorem list_literal_widening (st : CheckerState) (expr : Expr) :
    (∀ el elements, postVisitList st expr (el :: elements) =
      st.setType expr (.list
        (if elements.all (fun e => listElementType st e = listElementType st el)
         then listElementType st el else .dyn))) ∧
    (∀ o t, widenOverall (some o) t = some (if t = o then o else .dyn)) ∧
    (∀ e t, st.getTypeOrDyn e = CelType.optionalType t → listElementType st (e, true) = t) ∧
    (postVisitList st expr [] =
      { st with
          ictx := { st.ictx with nextId := st.ictx.nextId + 1 },
          types := (expr.exprId, .list (.typeParam (freshTypeVarName st.ictx.nextId)))
            :: st.types }) := by
  refine ⟨?_, ?_, ?_, ?_⟩
  · intro el elements
    have hmap := widenOverall_foldl_spec (listElementType st el)
      (elements.map (listElementType st))
    rw [List.foldl_map] at hmap
    have h1 : (el :: elements).foldl
        (fun acc el => widenOverall acc (listElementType st el)) none =
        some (if elements.all (fun e => listElementType st e = listElementType st el)
              then listElementType st el else .dyn) := by
      have hc : (elements.map (listElementType st)).all
          (fun t => t = listElementType st el) =
          elements.all (fun e => listElementType st e = listElementType st el) :=
        list_all_map (listElementType st) _ elements
      rw [List.foldl_cons]
      have h0 : widenOverall none (listElementType st el) =
          some (listElementType st el) := rfl
      rw [h0, hmap, hc]
    simp only [postVisitList]
    rw [h1]
  · intro o t
    by_cases h : t = o <;> simp [widenOverall, h]
  · intro e t h
    simp [listElementType, h, CelType.optionalType, CelType.optionalParam]
  · rfl

/-- C8 witness: a homogeneous two-element int list is `list(int)`, an
optional element of type `optional(int)` contributes `int`. -/
theorem list_literal_widening_witness :
    (postVisitList ⟨[], .ok, ⟨0, []⟩, [(4, .int), (5, .int)], [], [], [], [], []⟩
        (.list 1 [(.ident 4 "a", false), (.ident 5 "b", false)])
        [(.ident 4 "a", false), (.ident 5 "b", false)] =
      CheckerState.setType ⟨[], .ok, ⟨0, []⟩, [(4, .int), (5, .int)], [], [], [], [], []⟩
        (.list 1 [(.ident 4 "a", false), (.ident 5 "b", false)])
        (.list
          (if [((.ident 5 "b" : Expr), false)].all
              (fun e => listElementType ⟨[], .ok, ⟨0, []⟩, [(4, .int), (5, .int)], [], [], [], [], []⟩ e =
                listElementType ⟨[], .ok, ⟨0, []⟩, [(4, .int), (5, .int)], [], [], [], [], []⟩
                  ((.ident 4 "a" : Expr), false))
           then listElementType ⟨[], .ok, ⟨0, []⟩, [(4, .int), (5, .int)], [], [], [], [], []⟩
                  ((.ident 4 "a" : Expr), false)
           else .dyn))) ∧
    listElementType ⟨[], .ok, ⟨0, []⟩, [(6, CelType.optionalType .int)], [], [], [], [], []⟩
      (.ident 6 "c", true) = .int :=
  ⟨(list_literal_widening ⟨[], .ok, ⟨0, []⟩, [(4, .int), (5, .int)], [], [], [], [], []⟩
      (.list 1 [(.ident 4 "a", false), (.ident 5 "b", false)])).1
      (.ident 4 "a", false) [(.ident 5 "b", false)],
   (list_literal_widening ⟨[], .ok, ⟨0, []⟩, [(6, CelType.optionalType .int)], [], [], [], [], []⟩
      (.list 1 [])).2.2.1 (.ident 6 "c") .int rfl⟩

/-- Issue accumulation does not change recorded types. -/
theorem getTypeOrDyn_issues (st : CheckerState) (issues : List TypeCheckIssue) (e : Expr) :
    CheckerState.getTypeOrDyn { st with issues := issues } e = st.getTypeOrDyn e := rfl

/-- Issue accumulation does not change entry value types. -/
theorem mapEntryValueType_issues (st : CheckerState) (issues : List TypeCheckIssue)
    (entry : Expr × Expr × Bool) :
    mapEntryValueType { st with issues := issues } entry = mapEntryValueType st entry := rfl

/-- The PostVisitMap entry loop appends exactly one warning per
unsupported-key entry and widens keys and values against the initial state's
type table. -/
theorem postVisitMap_foldl_spec (si : SourceInfo) (entries : List (Expr × Expr × Bool)) :
    ∀ (st : CheckerState) (k0 v0 : Option CelType),
    entries.foldl (postVisitMapStep si) (st, k0, v0) =
      ({ st with issues := st.issues ++ mapKeyWarnings si st entries },
       (entries.map (fun e => st.getTypeOrDyn e.1)).foldl widenOverall k0,
       (entries.map (fun e => mapEntryValueType st e)).foldl widenOverall v0) := by
  induction entries with
  | nil => intro st k0 v0; simp [mapKeyWarnings]
  | cons entry rest ih =>
    intro st k0 v0
    by_cases hk : isSupportedKeyType (st.getTypeOrDyn entry.1)
    · simp only [List.foldl_cons, postVisitMapStep, hk, if_true]
      rw [ih st]
      simp [mapKeyWarnings, hk]
    · simp only [List.foldl_cons, postVisitMapStep, hk, if_false, Bool.false_eq_true]
      rw [ih { st with issues := st.issues ++ [mapKeyWarning si entry.1 (st.getTypeOrDyn entry.1)] }]
      simp [mapKeyWarnings, hk, getTypeOrDyn_issues, mapEntryValueType_issues]

/-- C9: a map literal entry whose key type is unsupported contributes exactly
one issue, of warning severity (never error), naming the key type — and the
typing of the map (status and recorded type) is what the widening computes
regardless of those warnings. -/
theorem map_key_warning_severity (si : SourceInfo) (st : CheckerState) (expr : Expr)
    (entries : List (Expr × Expr × Bool)) :
    ((postVisitMap si st expr entries).issues = st.issues ++ mapKeyWarnings si st entries) ∧
    (∀ issue, issue ∈ (postVisitMap si st expr entries).issues → issue ∉ st.issues →
      issue.severity = .warning ∧ ∃ e, e ∈ entries ∧
        issue.message = "unsupported map key type: " ++ (st.getTypeOrDyn e.1).debugString) ∧
    ((postVisitMap si st expr entries).status = st.status) ∧
    (∀ el rest, entries = el :: rest →
      (postVisitMap si st expr entries).types =
        (expr.exprId, .map
          (if rest.all (fun e => st.getTypeOrDyn e.1 = st.getTypeOrDyn el.1)
           then st.getTypeOrDyn el.1 else .dyn)
          (if rest.all (fun e => mapEntryValueType st e = mapEntryValueType st el)
           then mapEntryValueType st el else .dyn)) :: st.types) := by
  have hwarn : ∀ issue, issue ∈ mapKeyWarnings si st entries →
      issue.severity = .warning ∧ ∃ e, e ∈ entries ∧
        issue.message = "unsupported map key type: " ++ (st.getTypeOrDyn e.1).debugString := by
    intro issue hmem
    simp only [mapKeyWarnings, List.mem_map] at hmem
    obtain ⟨e, he, heq⟩ := hmem
    subst heq
    exact ⟨rfl, e, List.mem_of_mem_filter he, rfl⟩
  cases entries with
  | nil =>
    refine ⟨by simp [postVisitMap, mapKeyWarnings], ?_, by simp [postVisitMap], ?_⟩
    · intro issue hmem hnot
      exfalso
      exact hnot (by simpa [postVisitMap] using hmem)
    · intro el rest h
      exact absurd h (by simp)
  | cons el rest =>
    have hfold := postVisitMap_foldl_spec si (el :: rest) st none none
    have hkey : ((el :: rest).map (fun e => st.getTypeOrDyn e.1)).foldl widenOverall none =
        some (if rest.all (fun e => st.getTypeOrDyn e.1 = st.getTypeOrDyn el.1)
              then st.getTypeOrDyn el.1 else .dyn) := by
      rw [List.map_cons, List.foldl_cons]
      have h0 : widenOverall none (st.getTypeOrDyn el.1) = some (st.getTypeOrDyn el.1) := rfl
      rw [h0, widenOverall_foldl_spec]
      simp only [list_all_map]
    have hval : ((el :: rest).map (fun e => mapEntryValueType st e)).foldl widenOverall none =
        some (if rest.all (fun e => mapEntryValueType st e = mapEntryValueType st el)
              then mapEntryValueType st el else .dyn) := by
      rw [List.map_cons, List.foldl_cons]
      have h0 : widenOverall none (mapEntryValueType st el) =
          some (mapEntryValueType st el) := rfl
      rw [h0, widenOverall_foldl_spec]
      simp only [list_all_map]
    have hpvm : postVisitMap si st expr (el :: rest) =
        CheckerState.setType { st with issues := st.issues ++ mapKeyWarnings si st (el :: rest) }
          expr (.map
            (if rest.all (fun e => st.getTypeOrDyn e.1 = st.getTypeOrDyn el.1)
             then st.getTypeOrDyn el.1 else .dyn)
            (if rest.all (fun e => mapEntryValueType st e = mapEntryValueType st el)
             then mapEntryValueType st el else .dyn)) := by
      simp only [postVisitMap, hfold, hkey, hval]
    refine ⟨by rw [hpvm]; rfl, ?_, by rw [hpvm]; rfl, ?_⟩
    · intro issue hmem hnot
      rw [hpvm] at hmem
      have : issue ∈ st.issues ++ mapKeyWarnings si st (el :: rest) := hmem
      rcases List.mem_append.mp this with h | h
      · exact absurd h hnot
      · exact hwarn issue h
    · intro el2 rest2 h
      injection h with h1 h2
      subst h1; subst h2
      rw [hpvm]
      rfl

/-- C9 witness: a double-typed key yields exactly one warning-severity issue
naming the key type while the map is still typed map(double, int). -/
theorem map_key_warning_severity_witness :
    ((postVisitMap ⟨[], []⟩ ⟨[], .ok, ⟨0, []⟩, [(7, .double), (8, .int)], [], [], [], [], []⟩
        (.map 1 [(.ident 7 "k", .ident 8 "v", false)])
        [(.ident 7 "k", .ident 8 "v", false)]).issues =
      [] ++ mapKeyWarnings ⟨[], []⟩
        ⟨[], .ok, ⟨0, []⟩, [(7, .double), (8, .int)], [], [], [], [], []⟩
        [(.ident 7 "k", .ident 8 "v", false)]) ∧
    mapKeyWarnings ⟨[], []⟩ ⟨[], .ok, ⟨0, []⟩, [(7, .double), (8, .int)], [], [], [], [], []⟩
        [(.ident 7 "k", .ident 8 "v", false)] =
      [⟨.warning, ⟨-1, -1⟩, "unsupported map key type: double"⟩] ∧
    (postVisitMap ⟨[], []⟩ ⟨[], .ok, ⟨0, []⟩, [(7, .double), (8, .int)], [], [], [], [], []⟩
        (.map 1 [(.ident 7 "k", .ident 8 "v", false)])
        [(.ident 7 "k", .ident 8 "v", false)]).types.lookup 1 = some (.map .double .int) :=
  ⟨(map_key_warning_severity ⟨[], []⟩
      ⟨[], .ok, ⟨0, []⟩, [(7, .double), (8, .int)], [], [], [], [], []⟩
      (.map 1 [(.ident 7 "k", .ident 8 "v", false)])
      [(.ident 7 "k", .ident 8 "v", false)]).1,
   by decide, by decide⟩

/-- C7: after the iter_range visit the iter variable is inserted into the
iter scope with the range's element type for a list range, the key type for a
map range, dyn for a dyn range, and for any other range kind an error naming
the range type (must be list, map, or dynamic) is emitted and the variable
gets dyn. -/
theorem iter_var_type_inference (si : SourceInfo) (st : CheckerState) (store : ScopeStore)
    (scope : ComprehensionScopeRec) (expr : Expr) (iterVar : String)
    (iterRangeExpr : Expr) :
    (∀ elemType, st.getTypeOrDyn iterRangeExpr = .list elemType →
      postVisitIterRange si st store scope expr iterVar iterRangeExpr =
        (st, store.insertVariableIfAbsent scope.iterScope (makeVariableDecl iterVar elemType))) ∧
    (∀ keyType valueType, st.getTypeOrDyn iterRangeExpr = .map keyType valueType →
      postVisitIterRange si st store scope expr iterVar iterRangeExpr =
        (st, store.insertVariableIfAbsent scope.iterScope (makeVariableDecl iterVar keyType))) ∧
    (st.getTypeOrDyn iterRangeExpr = .dyn →
      postVisitIterRange si st store scope expr iterVar iterRangeExpr =
        (st, store.insertVariableIfAbsent scope.iterScope (makeVariableDecl iterVar .dyn))) ∧
    ((st.getTypeOrDyn iterRangeExpr).kind ≠ .list →
     (st.getTypeOrDyn iterRangeExpr).kind ≠ .map →
     (st.getTypeOrDyn iterRangeExpr).kind ≠ .dyn →
      postVisitIterRange si st store scope expr iterVar iterRangeExpr =
        ({ st with issues := st.issues ++ [TypeCheckIssue.createError
            (computeSourceLocation si expr.exprId)
            ("expression of type '" ++ (st.getTypeOrDyn iterRangeExpr).debugString ++
              "' cannot be the range of a comprehension (must be list, map, or dynamic)")] },
         store.insertVariableIfAbsent scope.iterScope (makeVariableDecl iterVar .dyn))) := by
  refine ⟨?_, ?_, ?_, ?_⟩
  · intro elemType h
    simp [postVisitIterRange, h]
  · intro keyType valueType h
    simp [postVisitIterRange, h]
  · intro h
    simp [postVisitIterRange, h]
  · intro h1 h2 h3
    cases h : st.getTypeOrDyn iterRangeExpr <;>
      simp_all [postVisitIterRange, CelType.kind]

/-- C7 witness: a string-typed range is rejected with the
must-be-list-map-or-dynamic error and the iter variable gets dyn. -/
theorem iter_var_type_inference_witness :
    postVisitIterRange ⟨[], []⟩ ⟨[], .ok, ⟨0, []⟩, [(9, .string)], [], [], [], [], []⟩
        ⟨[⟨[], none⟩, ⟨[], some 0⟩]⟩ ⟨5, 0, 0, 1⟩ (.ident 5 "c") "x" (.ident 9 "r") =
      ({ (⟨[], .ok, ⟨0, []⟩, [(9, .string)], [], [], [], [], []⟩ : CheckerState) with
          issues := ([] : List TypeCheckIssue) ++ [TypeCheckIssue.createError
            (computeSourceLocation ⟨[], []⟩ (Expr.exprId (.ident 5 "c")))
            ("expression of type '" ++
              (CheckerState.getTypeOrDyn ⟨[], .ok, ⟨0, []⟩, [(9, .string)], [], [], [], [], []⟩
                (.ident 9 "r")).debugString ++
              "' cannot be the range of a comprehension (must be list, map, or dynamic)")] },
       ScopeStore.insertVariableIfAbsent ⟨[⟨[], none⟩, ⟨[], some 0⟩]⟩ 1
         (makeVariableDecl "x" .dyn)) :=
  (iter_var_type_inference ⟨[], []⟩ ⟨[], .ok, ⟨0, []⟩, [(9, .string)], [], [], [], [], []⟩
      ⟨[⟨[], none⟩, ⟨[], some 0⟩]⟩ ⟨5, 0, 0, 1⟩ (.ident 5 "c") "x"
      (.ident 9 "r")).2.2.2 (by decide) (by decide) (by decide)

/-- Scope lookup only reads nodes at indices up to the start index: stores
agreeing below the start index answer alike. -/
theorem lookupVariable_congr (nodes nodes2 : List ScopeNode) (name : String) :
    ∀ i, (∀ j, j ≤ i → nodes[j]? = nodes2[j]?) →
      ScopeStore.lookupVariable ⟨nodes⟩ i name = ScopeStore.lookupVariable ⟨nodes2⟩ i name := by
  intro i
  induction i using Nat.strong_induction_on with
  | _ i ih =>
    intro hagree
    rw [ScopeStore.lookupVariable, ScopeStore.lookupVariable]
    have hi : nodes[i]? = nodes2[i]? := hagree i le_rfl
    simp only
    rw [hi]
    cases h : nodes2[i]? with
    | none => rfl
    | some node =>
      dsimp only
      cases hv : node.vars.lookup name with
      | some d => rfl
      | none =>
        dsimp only
        cases hp : node.parent with
        | none => rfl
        | some p =>
          dsimp only
          by_cases hlt : p < i
          · rw [dif_pos hlt, dif_pos hlt]
            exact ih p hlt (fun j hj => hagree j (le_of_lt (lt_of_le_of_lt hj hlt)))
          · rw [dif_neg hlt, dif_neg hlt]

/-- Appending scope nodes does not change lookups rooted in the old store. -/
theorem lookupVariable_append (nodes extra : List ScopeNode) (i : Nat) (name : String)
    (h : i < nodes.length) :
    ScopeStore.lookupVariable ⟨nodes ++ extra⟩ i name =
      ScopeStore.lookupVariable ⟨nodes⟩ i name :=
  lookupVariable_congr _ _ name i
    (fun _ hj => List.getElem?_append_left (lt_of_le_of_lt hj h))

/-- Inserting a variable into one scope node leaves every other node as it
was. -/
theorem insertVariableIfAbsent_getElem (s : ScopeStore) (idx : Nat) (d : VariableDecl)
    (j : Nat) (hj : j ≠ idx) :
    (s.insertVariableIfAbsent idx d).nodes[j]? = s.nodes[j]? := by
  unfold ScopeStore.insertVariableIfAbsent
  cases h : s.nodes[idx]? with
  | none => rfl
  | some node =>
    dsimp only
    cases hv : node.vars.lookup d.name with
    | some d2 => rfl
    | none =>
      dsimp only
      exact List.getElem?_set_ne (Ne.symm hj)

/-- C6: the pre-visit of a comprehension nests the accu scope in the current
scope and the iter scope in the accu scope; iter_range and accu_init are
visited in the parent scope while loop_condition and result get the accu
scope and loop_step the iter scope; and lookups from the parent scope are
untouched by the comprehension's own iter_var/accu_var insertions, so no
identifier in iter_range or accu_init can resolve to them. -/
theorem comprehension_scope_hygiene (store : ScopeStore) (p : Nat)
    (hp : p < store.nodes.length) (expr : Expr) (name : String)
    (iterDecl accuDecl : VariableDecl) :
    comprehensionSubexpressionScope (preVisitComprehension store p expr).2 .iterRange = p ∧
    comprehensionSubexpressionScope (preVisitComprehension store p expr).2 .accuInit = p ∧
    comprehensionSubexpressionScope (preVisitComprehension store p expr).2 .loopCondition =
      (preVisitComprehension store p expr).2.accuScope ∧
    comprehensionSubexpressionScope (preVisitComprehension store p expr).2 .result =
      (preVisitComprehension store p expr).2.accuScope ∧
    comprehensionSubexpressionScope (preVisitComprehension store p expr).2 .loopStep =
      (preVisitComprehension store p expr).2.iterScope ∧
    (preVisitComprehension store p expr).2.accuScope = store.nodes.length ∧
    (preVisitComprehension store p expr).2.iterScope = store.nodes.length + 1 ∧
    ScopeStore.lookupVariable
      (((preVisitComprehension store p expr).1.insertVariableIfAbsent
          (preVisitComprehension store p expr).2.iterScope iterDecl).insertVariableIfAbsent
        (preVisitComprehension store p expr).2.accuScope accuDecl)
      p name =
    ScopeStore.lookupVariable store p name := by
  have hlen : (preVisitComprehension store p expr).1.nodes =
      store.nodes ++ [⟨[], some p⟩, ⟨[], some (store.nodes.length)⟩] := by
    simp [preVisitComprehension, ScopeStore.makeNestedScope]
  have haccu : (preVisitComprehension store p expr).2.accuScope = store.nodes.length := rfl
  have hiter : (preVisitComprehension store p expr).2.iterScope = store.nodes.length + 1 := by
    simp [preVisitComprehension, ScopeStore.makeNestedScope]
  refine ⟨rfl, rfl, rfl, rfl, rfl, haccu, hiter, ?_⟩
  have hagree : ∀ j, j ≤ p →
      (((preVisitComprehension store p expr).1.insertVariableIfAbsent
          (preVisitComprehension store p expr).2.iterScope iterDecl).insertVariableIfAbsent
        (preVisitComprehension store p expr).2.accuScope accuDecl).nodes[j]? =
      store.nodes[j]? := by
    intro j hj
    have hjlen : j < store.nodes.length := lt_of_le_of_lt hj hp
    have hjne1 : j ≠ (preVisitComprehension store p expr).2.accuScope := by
      rw [haccu]; omega
    have hjne2 : j ≠ (preVisitComprehension store p expr).2.iterScope := by
      rw [hiter]; omega
    rw [insertVariableIfAbsent_getElem _ _ _ _ hjne1,
        insertVariableIfAbsent_getElem _ _ _ _ hjne2, hlen]
    exact List.getElem?_append_left hjlen
  calc ScopeStore.lookupVariable _ p name
      = ScopeStore.lookupVariable ⟨store.nodes⟩ p name :=
        lookupVariable_congr _ _ name p hagree
    _ = ScopeStore.lookupVariable store p name := rfl

/-- C6 witness: with a one-variable environment scope, looking `x` up from
the parent scope after the comprehension scopes hold `x` as iter and accu
variables still answers from the environment only. -/
theorem comprehension_scope_hygiene_witness :
    comprehensionSubexpressionScope
      (preVisitComprehension ⟨[⟨[("y", ⟨"y", .int⟩)], none⟩]⟩ 0 (.ident 5 "c")).2
      .iterRange = 0 ∧
    ScopeStore.lookupVariable
      (((preVisitComprehension ⟨[⟨[("y", ⟨"y", .int⟩)], none⟩]⟩ 0 (.ident 5 "c")).1.insertVariableIfAbsent
          (preVisitComprehension ⟨[⟨[("y", ⟨"y", .int⟩)], none⟩]⟩ 0 (.ident 5 "c")).2.iterScope
          ⟨"x", .int⟩).insertVariableIfAbsent
        (preVisitComprehension ⟨[⟨[("y", ⟨"y", .int⟩)], none⟩]⟩ 0 (.ident 5 "c")).2.accuScope
        ⟨"x", .string⟩)
      0 "x" =
    ScopeStore.lookupVariable ⟨[⟨[("y", ⟨"y", .int⟩)], none⟩]⟩ 0 "x" :=
  ⟨(comprehension_scope_hygiene ⟨[⟨[("y", ⟨"y", .int⟩)], none⟩]⟩ 0 (by decide)
      (.ident 5 "c") "x" ⟨"x", .int⟩ ⟨"x", .string⟩).1,
   (comprehension_scope_hygiene ⟨[⟨[("y", ⟨"y", .int⟩)], none⟩]⟩ 0 (by decide)
      (.ident 5 "c") "x" ⟨"x", .int⟩ ⟨"x", .string⟩).2.2.2.2.2.2.2⟩

/-- The select-typing lambda records issues and bindings but never writes
the types table. -/
theorem selectImpl_types_preserved (env : TypeCheckEnv) (si : SourceInfo) (st : CheckerState)
    (expr : Expr) (field : String) (t : CelType) :
    (selectImpl env si st expr field t).1.types = st.types := by
  by_cases hk : t.kind = .dyn ∨ t.kind = .any
  · simp [selectImpl, hk]
  · unfold selectImpl
    rw [if_neg hk]
    cases t <;> try rfl
    · dsimp only
      rename_i k v
      cases st.ictx.isAssignable CelType.string k <;> rfl
    · dsimp only
      rename_i n
      cases env.lookupStructField n field <;> rfl

/-- C5: for a non-deferred select over an operand of type T with field F:
dyn/any operands yield dyn; a struct operand consults the environment's
(name, F) entry, a miss emitting the undefined-field error and a hit yielding
the declared field type; a map operand yields the value type when string is
assignable to the key type and the unsupported-operand error otherwise; an
optional(T') operand behaves exactly as the select-typing rules on T'; and a
test-only select is typed bool whenever a type is recorded at all. -/
theorem select_operand_typing (env : TypeCheckEnv) (si : SourceInfo) (st : CheckerState)
    (expr : Expr) (field : String) (operand : Expr) :
    ((st.getTypeOrDyn operand).kind = .dyn ∨ (st.getTypeOrDyn operand).kind = .any →
      expr.selectTestOnly = false →
      resolveSelectOperation env si st expr field operand = st.setType expr .dyn) ∧
    (∀ structName, st.getTypeOrDyn operand = .struct structName →
      expr.selectTestOnly = false →
      (∀ fieldInfo, env.lookupStructField structName field = some fieldInfo →
        resolveSelectOperation env si st expr field operand =
          st.setType expr fieldInfo.type) ∧
      (env.lookupStructField structName field = none →
        resolveSelectOperation env si st expr field operand =
          st.reportUndefinedField si expr.exprId field structName)) ∧
    (∀ keyType valueType, st.getTypeOrDyn operand = .map keyType valueType →
      expr.selectTestOnly = false →
      (∀ ictx2, st.ictx.isAssignable .string keyType = some ictx2 →
        resolveSelectOperation env si st expr field operand =
          CheckerState.setType { st with ictx := ictx2 } expr valueType) ∧
      (st.ictx.isAssignable .string keyType = none →
        resolveSelectOperation env si st expr field operand =
          { st with issues :=
              st.issues ++ [unsupportedSelectIssue si expr.exprId (st.getTypeOrDyn operand)] })) ∧
    (∀ heldType, st.getTypeOrDyn operand = CelType.optionalType heldType →
      resolveSelectOperation env si st expr field operand =
        (match (selectImpl env si st expr field heldType).2 with
         | some resultType =>
           if expr.selectTestOnly
           then (selectImpl env si st expr field heldType).1.setType expr .bool
           else (selectImpl env si st expr field heldType).1.setType expr resultType
         | none => (selectImpl env si st expr field heldType).1)) ∧
    (expr.selectTestOnly = true → st.types.lookup expr.exprId = none →
      ∀ t, (resolveSelectOperation env si st expr field operand).types.lookup expr.exprId =
          some t → t = .bool) := by
  refine ⟨?_, ?_, ?_, ?_, ?_⟩
  · intro hk htest
    rcases hk with hk | hk <;>
      cases ht : st.getTypeOrDyn operand <;>
        simp_all [resolveSelectOperation, selectImpl, CelType.kind, CelType.optionalParam,
          CelType.optionalType]
  · intro structName ht htest
    constructor
    · intro fieldInfo hf
      simp [resolveSelectOperation, ht, selectImpl, CelType.kind, CelType.optionalParam, hf,
        htest]
    · intro hf
      simp [resolveSelectOperation, ht, selectImpl, CelType.kind, CelType.optionalParam, hf]
  · intro keyType valueType ht htest
    constructor
    · intro ictx2 ha
      simp [resolveSelectOperation, ht, selectImpl, CelType.kind, CelType.optionalParam, ha,
        htest]
    · intro ha
      simp [resolveSelectOperation, ht, selectImpl, CelType.kind, CelType.optionalParam, ha]
  · intro heldType ht
    simp only [resolveSelectOperation, ht, CelType.optionalType, CelType.optionalParam]
    rfl
  · intro htest hnone t hlook
    unfold resolveSelectOperation at hlook
    simp only [htest, if_true] at hlook
    have hsame : (match (st.getTypeOrDyn operand).optionalParam with
        | some heldType => selectImpl env si st expr field heldType
        | none => selectImpl env si st expr field (st.getTypeOrDyn operand)).1.types =
        st.types := by
      cases hop : (st.getTypeOrDyn operand).optionalParam <;>
        simp only [hop] <;> apply selectImpl_types_preserved
    cases hstep : (match (st.getTypeOrDyn operand).optionalParam with
        | some heldType => selectImpl env si st expr field heldType
        | none => selectImpl env si st expr field (st.getTypeOrDyn operand)).2 with
    | some u =>
      rw [hstep] at hlook
      dsimp only at hlook
      simp only [CheckerState.setType] at hlook
      simp only [List.lookup, beq_self_eq_true, Option.some.injEq] at hlook
      exact hlook.symm
    | none =>
      rw [hstep] at hlook
      dsimp only at hlook
      rw [hsame, hnone] at hlook
      cases hlook

/-- C5 witness: a struct-typed operand with the field declared as int is
typed int; an int-keyed map operand (string not assignable to int) gets the
unsupported-operand error. -/
theorem select_operand_typing_witness :
    resolveSelectOperation ⟨"", [], [], [], [(("pkg.M", "f"), ⟨"f", .int⟩)]⟩ ⟨[], []⟩
        ⟨[], .ok, ⟨0, []⟩, [(2, .struct "pkg.M")], [], [], [], [], []⟩
        (.select 1 (.ident 2 "m") "f" false) "f" (.ident 2 "m") =
      CheckerState.setType ⟨[], .ok, ⟨0, []⟩, [(2, .struct "pkg.M")], [], [], [], [], []⟩
        (.select 1 (.ident 2 "m") "f" false) .int ∧
    resolveSelectOperation ⟨"", [], [], [], []⟩ ⟨[], []⟩
        ⟨[], .ok, ⟨0, []⟩, [(2, .map .int .int)], [], [], [], [], []⟩
        (.select 1 (.ident 2 "m") "f" false) "f" (.ident 2 "m") =
      { (⟨[], .ok, ⟨0, []⟩, [(2, .map .int .int)], [], [], [], [], []⟩ : CheckerState) with
          issues := ([] : List TypeCheckIssue) ++ [unsupportedSelectIssue ⟨[], []⟩ 1
            (CheckerState.getTypeOrDyn
              ⟨[], .ok, ⟨0, []⟩, [(2, .map .int .int)], [], [], [], [], []⟩
              (.ident 2 "m"))] } :=
  ⟨((select_operand_typing ⟨"", [], [], [], [(("pkg.M", "f"), ⟨"f", .int⟩)]⟩ ⟨[], []⟩
      ⟨[], .ok, ⟨0, []⟩, [(2, .struct "pkg.M")], [], [], [], [], []⟩
      (.select 1 (.ident 2 "m") "f" false) "f" (.ident 2 "m")).2.1
      "pkg.M" rfl rfl).1 ⟨"f", .int⟩ rfl,
   ((select_operand_typing ⟨"", [], [], [], []⟩ ⟨[], []⟩
      ⟨[], .ok, ⟨0, []⟩, [(2, .map .int .int)], [], [], [], [], []⟩
      (.select 1 (.ident 2 "m") "f" false) "f" (.ident 2 "m")).2.2.1
      .int .int rfl rfl).2 rfl⟩

/-- A select node is not a call node. -/
theorem hasSelectExpr_not_call (e : Expr) (h : e.hasSelectExpr = true) :
    e.hasCallExpr = false := by
  cases e <;> simp_all [Expr.hasSelectExpr, Expr.hasCallExpr]

/-- C10: when the ancestor walk above an identifier runs through a chain of
non-test-only selects and reaches a test-only select, it stops right there:
the test-only select's field is the last accumulated qualifier, ancestors
above it are neither accumulated nor deferred (the outcome does not depend on
them at all — even when the next parent is a call with the chain as its
receiver target), no receiver call is recorded, and PostVisitIdent resolves
the chain as a qualified identifier rooted at the test-only select. -/
theorem identWalk_test_only_stop (chain : List Expr) (sel : Expr) (above : List Expr)
    (hchain : ∀ e ∈ chain, e.hasSelectExpr = true ∧ e.selectTestOnly = false)
    (hsel : sel.hasSelectExpr = true) (hTest : sel.selectTestOnly = true) :
    (∀ qs ds root, identWalkGo (chain ++ sel :: above) qs ds root =
      ⟨qs ++ chain.map Expr.selectField ++ [sel.selectField],
       ds ++ chain.map Expr.exprId ++ [sel.exprId], sel, none⟩) ∧
    (∀ (env : TypeCheckEnv) (si : SourceInfo) (store : ScopeStore) (currentScope : Nat)
        (st : CheckerState) (expr : Expr) (name : String),
      postVisitIdent env si store currentScope st
          ((chain ++ sel :: above).reverse ++ [expr]) expr name =
        resolveQualifiedIdentifier env si store currentScope
          { st with deferredSelectOperations := st.deferredSelectOperations ++
              (chain.map Expr.exprId ++ [sel.exprId]) }
          sel (name :: (chain.map Expr.selectField ++ [sel.selectField]))) := by
  have hwalk : ∀ (chain2 : List Expr),
      (∀ e ∈ chain2, e.hasSelectExpr = true ∧ e.selectTestOnly = false) →
      ∀ qs ds root, identWalkGo (chain2 ++ sel :: above) qs ds root =
        ⟨qs ++ chain2.map Expr.selectField ++ [sel.selectField],
         ds ++ chain2.map Expr.exprId ++ [sel.exprId], sel, none⟩ := by
    intro chain2
    induction chain2 with
    | nil =>
      intro _ qs ds root
      rw [List.nil_append, identWalkGo]
      rw [hasSelectExpr_not_call sel hsel]
      simp [hsel, hTest]
    | cons e rest ih =>
      intro hc qs ds root
      have he := hc e (List.mem_cons_self e rest)
      rw [List.cons_append, identWalkGo]
      rw [hasSelectExpr_not_call e he.1]
      simp only [Bool.false_and, Bool.false_eq_true, if_false, he.1, Bool.not_true, he.2]
      rw [ih (fun e2 hmem => hc e2 (List.mem_cons_of_mem e hmem)) (qs ++ [e.selectField])
        (ds ++ [e.exprId]) e]
      simp
  refine ⟨hwalk chain hchain, ?_⟩
  intro env si store currentScope st expr name
  have hlen : (((chain ++ sel :: above).reverse ++ [expr]).length == 1) = false := by
    simp only [List.length_append, List.length_reverse, List.length_cons, beq_eq_false_iff_ne,
      ne_eq]
    omega
  have hdrop : ((chain ++ sel :: above).reverse ++ [expr]).dropLast.reverse =
      chain ++ sel :: above := by
    rw [List.dropLast_concat, List.reverse_reverse]
  rw [postVisitIdent, hlen]
  simp only [Bool.false_eq_true, if_false, hdrop]
  rw [hwalk chain hchain [name] [] expr]
  simp

/-- C10 witness: `a.b.c!` (test-only select at the top of the chain) below a
call that has the chain as its receiver target: the walk accumulates
["a", "b", "c"], defers only the two selects, roots at the test-only select
and records no receiver call. -/
theorem identWalk_test_only_stop_witness :
    identWalkGo
        ([.select 3 (.ident 4 "a") "b" false] ++
          (.select 2 (.select 3 (.ident 4 "a") "b" false) "c" true) ::
          [.call 1 (some (.select 2 (.select 3 (.ident 4 "a") "b" false) "c" true)) "f" []])
        ["a"] [] (.ident 4 "a") =
      ⟨["a"] ++ [Expr.select 3 (.ident 4 "a") "b" false].map Expr.selectField ++
        [(Expr.select 2 (.select 3 (.ident 4 "a") "b" false) "c" true).selectField],
       [] ++ [Expr.select 3 (.ident 4 "a") "b" false].map Expr.exprId ++
        [(Expr.select 2 (.select 3 (.ident 4 "a") "b" false) "c" true).exprId],
       .select 2 (.select 3 (.ident 4 "a") "b" false) "c" true, none⟩ :=
  (identWalk_test_only_stop [.select 3 (.ident 4 "a") "b" false]
      (.select 2 (.select 3 (.ident 4 "a") "b" false) "c" true)
      [.call 1 (some (.select 2 (.select 3 (.ident 4 "a") "b" false) "c" true)) "f" []]
      (by intro e he; simp at he; subst he; exact ⟨rfl, rfl⟩)
      rfl rfl).1 ["a"] [] (.ident 4 "a")

/-- When every namespace candidate either names no function or one without a
matching (member, arity) overload, shape resolution misses. -/
theorem resolveFunctionCallShapeGo_none (env : TypeCheckEnv) (argCount : Nat)
    (isReceiver : Bool) :
    ∀ cands : List String,
      (∀ c ∈ cands, ∀ d, env.lookupFunction c = some d →
        shapeMatches d argCount isReceiver = false) →
      resolveFunctionCallShapeGo env argCount isReceiver cands = none := by
  intro cands
  induction cands with
  | nil => intro _; rfl
  | cons c rest ih =>
    intro h
    rw [resolveFunctionCallShapeGo]
    cases hc : env.lookupFunction c with
    | none => exact ih (fun c2 hmem => h c2 (List.mem_cons_of_mem _ hmem))
    | some d =>
      dsimp only
      rw [h c (List.mem_cons_self c rest) d hc]
      simp only [Bool.false_eq_true, if_false]
      exact ih (fun c2 hmem => h c2 (List.mem_cons_of_mem _ hmem))

/-- C4: for a call not recorded as maybe-namespaced, if no namespace
candidate yields a declaration with a matching call-style/arity overload,
PostVisitCall reports an undeclared reference naming the function; if shape
resolution finds a declaration but overload resolution fails on the argument
types, it reports "found no matching overload" whose message carries the
debug strings of the argument types. -/
theorem call_resolution_errors (env : TypeCheckEnv) (si : SourceInfo) (store : ScopeStore)
    (currentScope : Nat) (st : CheckerState) (expr : Expr)
    (hmn : st.maybeNamespacedFunctions.lookup expr.exprId = none) :
    ((∀ c ∈ containerCands env.container expr.callFunction, ∀ d,
        env.lookupFunction c = some d →
        shapeMatches d (expr.callArgs.length + (if expr.callTarget.isSome then 1 else 0))
          expr.callTarget.isSome = false) →
      postVisitCall env si store currentScope st expr =
        st.reportMissingReference si env.container expr expr.callFunction ∧
      (st.reportMissingReference si env.container expr expr.callFunction).issues =
        st.issues ++ [TypeCheckIssue.createError (computeSourceLocation si expr.exprId)
          ("undeclared reference to '" ++ expr.callFunction ++ "' (in container '" ++
            env.container ++ "')")]) ∧
    (∀ decl, resolveFunctionCallShape env expr.callFunction
        (expr.callArgs.length + (if expr.callTarget.isSome then 1 else 0))
        expr.callTarget.isSome = some decl →
      st.ictx.resolveOverload decl (callArgTypes st expr expr.callTarget.isSome)
        expr.callTarget.isSome = none →
      postVisitCall env si store currentScope st expr =
        { st with issues := st.issues ++
            [noMatchingOverloadIssue si expr.exprId decl.name
              (callArgTypes st expr expr.callTarget.isSome)] } ∧
      (noMatchingOverloadIssue si expr.exprId decl.name
          (callArgTypes st expr expr.callTarget.isSome)).message =
        "found no matching overload for '" ++ decl.name ++ "' applied to (" ++
          String.intercalate ", "
            ((callArgTypes st expr expr.callTarget.isSome).map CelType.debugString) ++
          ")") := by
  constructor
  · intro h
    have hshape : resolveFunctionCallShape env expr.callFunction
        (expr.callArgs.length + (if expr.callTarget.isSome then 1 else 0))
        expr.callTarget.isSome = none :=
      resolveFunctionCallShapeGo_none env _ _ _ h
    constructor
    · rw [postVisitCall, hmn]
      dsimp only
      rw [postVisitCallGeneric, hshape]
    · rfl
  · intro decl hshape hover
    constructor
    · rw [postVisitCall, hmn]
      dsimp only
      rw [postVisitCallGeneric, hshape]
      dsimp only
      rw [resolveFunctionOverloads, hover]
    · rfl

/-- C4 witness: an unknown function yields the undeclared-reference error;
a known one-int-argument function applied to a string yields the
no-matching-overload error with the argument's debug string. -/
theorem call_resolution_errors_witness :
    postVisitCall ⟨"", [], [], [], []⟩ ⟨[], []⟩ ⟨[]⟩ 0
        ⟨[], .ok, ⟨0, []⟩, [], [], [], [], [], []⟩ (.call 1 none "g" []) =
      CheckerState.reportMissingReference ⟨[], .ok, ⟨0, []⟩, [], [], [], [], [], []⟩
        ⟨[], []⟩ "" (.call 1 none "g" []) "g" ∧
    postVisitCall ⟨"", [], [("f", ⟨"f", [⟨"f_int", false, [.int], .int, []⟩]⟩)], [], []⟩
        ⟨[], []⟩ ⟨[]⟩ 0 ⟨[], .ok, ⟨0, []⟩, [(2, .string)], [], [], [], [], []⟩
        (.call 1 none "f" [.ident 2 "s"]) =
      { (⟨[], .ok, ⟨0, []⟩, [(2, .string)], [], [], [], [], []⟩ : CheckerState) with
          issues := ([] : List TypeCheckIssue) ++
            [noMatchingOverloadIssue ⟨[], []⟩ 1 "f"
              (callArgTypes ⟨[], .ok, ⟨0, []⟩, [(2, .string)], [], [], [], [], []⟩
                (.call 1 none "f" [.ident 2 "s"])
                (Expr.callTarget (.call 1 none "f" [.ident 2 "s"])).isSome)] } :=
  ⟨((call_resolution_errors ⟨"", [], [], [], []⟩ ⟨[], []⟩ ⟨[]⟩ 0
      ⟨[], .ok, ⟨0, []⟩, [], [], [], [], [], []⟩ (.call 1 none "g" []) rfl).1
      (by intro c hc d hd; simp [containerCands, splitDots] at hc; subst hc;
          simp [TypeCheckEnv.lookupFunction, List.lookup] at hd)).1,
   ((call_resolution_errors
      ⟨"", [], [("f", ⟨"f", [⟨"f_int", false, [.int], .int, []⟩]⟩)], [], []⟩ ⟨[], []⟩ ⟨[]⟩ 0
      ⟨[], .ok, ⟨0, []⟩, [(2, .string)], [], [], [], [], []⟩
      (.call 1 none "f" [.ident 2 "s"]) rfl).2 ⟨"f", [⟨"f_int", false, [.int], .int, []⟩]⟩
      rfl rfl).1⟩

/-- Rewriting a call's function name preserves its receiver target. -/
theorem setCallFunction_target (e : Expr) (n : String) :
    (e.setCallFunction n).callTarget = e.callTarget := by
  cases e <;> rfl

/-- Clearing the receiver target of a node that has one leaves none. -/
theorem clearCallTarget_target (e t : Expr) (h : e.callTarget = some t) :
    e.clearCallTarget.callTarget = none := by
  cases e <;> simp_all [Expr.callTarget, Expr.clearCallTarget]

/-- C3: for a call recorded as maybe-namespaced with receiver chain
`qualifiers`, PostVisitCall first looks up
`dotjoin(qualifiers) + "." + function` with member = false and arity equal to
the plain argument count. On a hit the call resolves as a namespaced call
(overloads resolved with member = false), the functions table marks it
namespace_rewrite = true, and the rewrite pass clears its receiver target.
On a miss the qualifier chain is resolved as a qualified identifier over the
receiver target and the call then goes down the normal path, which for a call
with a receiver target uses member = true and arity incremented by one. -/
theorem namespaced_call_resolution (env : TypeCheckEnv) (si : SourceInfo)
    (store : ScopeStore) (currentScope : Nat) (st : CheckerState) (expr target : Expr)
    (qualifiers : List String)
    (hmn : st.maybeNamespacedFunctions.lookup expr.exprId = some qualifiers)
    (htarget : expr.callTarget = some target) :
    (∀ decl, resolveFunctionCallShape env
        (formatCandidate qualifiers ++ "." ++ expr.callFunction)
        expr.callArgs.length false = some decl →
      (postVisitCall env si store currentScope st expr =
        resolveFunctionOverloads si st expr decl false true) ∧
      (∀ resolution ictx2,
        st.ictx.resolveOverload decl (callArgTypes st expr false) false =
          some (resolution, ictx2) →
        (∃ narrowedDecl,
          (resolveFunctionOverloads si st expr decl false true).functions.lookup
            expr.exprId = some ⟨narrowedDecl, true⟩) ∧
        (st.attributes.lookup expr.exprId = none →
          ∀ rwState : RewriteState,
            (postVisitRewrite (resolveFunctionOverloads si st expr decl false true)
              rwState expr).1.callTarget = none))) ∧
    (resolveFunctionCallShape env (formatCandidate qualifiers ++ "." ++ expr.callFunction)
        expr.callArgs.length false = none →
      postVisitCall env si store currentScope st expr =
        postVisitCallGeneric env si
          (resolveQualifiedIdentifier env si store currentScope st target qualifiers)
          expr) ∧
    (∀ st2 : CheckerState, postVisitCallGeneric env si st2 expr =
      (match resolveFunctionCallShape env expr.callFunction (expr.callArgs.length + 1)
          true with
       | some decl2 => resolveFunctionOverloads si st2 expr decl2 true false
       | none => st2.reportMissingReference si env.container expr expr.callFunction)) := by
  have hsome : expr.callTarget.isSome = true := by rw [htarget]; rfl
  refine ⟨?_, ?_, ?_⟩
  · intro decl hshape
    constructor
    · rw [postVisitCall, hmn]
      dsimp only
      rw [hshape]
    · intro resolution ictx2 hres
      have hv : resolveFunctionOverloads si st expr decl false true =
          { st with
              ictx := ictx2,
              status := (narrowedFunctionDecl decl.name st.status resolution.overloads).2,
              functions := (expr.exprId,
                ⟨(narrowedFunctionDecl decl.name st.status resolution.overloads).1, true⟩)
                :: st.functions,
              types := (expr.exprId, resolution.resultType) :: st.types } := by
        rw [resolveFunctionOverloads, hres]
      constructor
      · exact ⟨(narrowedFunctionDecl decl.name st.status resolution.overloads).1,
          by rw [hv]; simp [List.lookup]⟩
      · intro hattr rwState
        rw [hv, postVisitRewrite]
        have htgt2 : (expr.setCallFunction
            (narrowedFunctionDecl decl.name st.status resolution.overloads).1.name).callTarget =
            some target := by
          rw [setCallFunction_target, htarget]
        have hclear := clearCallTarget_target
          (expr.setCallFunction
            (narrowedFunctionDecl decl.name st.status resolution.overloads).1.name)
          target htgt2
        simp only [hattr, List.lookup, beq_self_eq_true, htgt2, Option.isSome_some,
          Bool.true_and, if_true]
        cases hfl : flattenType (InferenceContext.finalizeType ictx2 resolution.resultType) <;>
          simp_all
  · intro hshape
    rw [postVisitCall, hmn]
    dsimp only
    rw [hshape]
    dsimp only
    rw [htarget]
  · intro st2
    rw [postVisitCallGeneric, hsome]
    rfl

/-- C3 witness: `a.b.c(x)` with `a.b.c` declared as a non-member one-int
function: the call resolves as a namespaced call and the rewrite pass clears
the receiver target. -/
theorem namespaced_call_resolution_witness :
    (postVisitCall
        ⟨"", [], [("a.b.c", ⟨"a.b.c", [⟨"a_b_c_int", false, [.int], .int, []⟩]⟩)], [], []⟩
        ⟨[], []⟩ ⟨[]⟩ 0
        ⟨[], .ok, ⟨0, []⟩, [(4, .int)], [], [], [], [(1, ["a", "b"])], []⟩
        (.call 1 (some (.select 2 (.ident 3 "a") "b" false)) "c" [.ident 4 "x"]) =
      resolveFunctionOverloads ⟨[], []⟩
        ⟨[], .ok, ⟨0, []⟩, [(4, .int)], [], [], [], [(1, ["a", "b"])], []⟩
        (.call 1 (some (.select 2 (.ident 3 "a") "b" false)) "c" [.ident 4 "x"])
        ⟨"a.b.c", [⟨"a_b_c_int", false, [.int], .int, []⟩]⟩ false true) ∧
    (postVisitRewrite
        (resolveFunctionOverloads ⟨[], []⟩
          ⟨[], .ok, ⟨0, []⟩, [(4, .int)], [], [], [], [(1, ["a", "b"])], []⟩
          (.call 1 (some (.select 2 (.ident 3 "a") "b" false)) "c" [.ident 4 "x"])
          ⟨"a.b.c", [⟨"a_b_c_int", false, [.int], .int, []⟩]⟩ false true)
        ⟨[], [], .ok⟩
        (.call 1 (some (.select 2 (.ident 3 "a") "b" false)) "c"
          [.ident 4 "x"])).1.callTarget = none :=
  ⟨((namespaced_call_resolution
      ⟨"", [], [("a.b.c", ⟨"a.b.c", [⟨"a_b_c_int", false, [.int], .int, []⟩]⟩)], [], []⟩
      ⟨[], []⟩ ⟨[]⟩ 0
      ⟨[], .ok, ⟨0, []⟩, [(4, .int)], [], [], [], [(1, ["a", "b"])], []⟩
      (.call 1 (some (.select 2 (.ident 3 "a") "b" false)) "c" [.ident 4 "x"])
      (.select 2 (.ident 3 "a") "b" false) ["a", "b"] rfl rfl).1
      ⟨"a.b.c", [⟨"a_b_c_int", false, [.int], .int, []⟩]⟩ rfl).1,
   (((namespaced_call_resolution
      ⟨"", [], [("a.b.c", ⟨"a.b.c", [⟨"a_b_c_int", false, [.int], .int, []⟩]⟩)], [], []⟩
      ⟨[], []⟩ ⟨[]⟩ 0
      ⟨[], .ok, ⟨0, []⟩, [(4, .int)], [], [], [], [(1, ["a", "b"])], []⟩
      (.call 1 (some (.select 2 (.ident 3 "a") "b" false)) "c" [.ident 4 "x"])
      (.select 2 (.ident 3 "a") "b" false) ["a", "b"] rfl rfl).1
      ⟨"a.b.c", [⟨"a_b_c_int", false, [.int], .int, []⟩]⟩ rfl).2
      ⟨.int, [⟨"a_b_c_int", false, [.int], .int, []⟩]⟩ ⟨0, []⟩ rfl).2 rfl ⟨[], [], .ok⟩⟩

end Cel
